import Mathlib

/-!
Airline reservation system: booking engine, catalog and passenger directory.

A shallow embedding of the core of `AirlineReservationSystem.cpp`.

The member functions of `AirlineSystem` read their arguments from the console and report
their outcome by printing a message.  Here every value read from the console is an argument
of the function, every printed outcome is a returned value, and the four vectors together
with the function-local static `counter` of `generateBookingID` form an explicit state.
Each `for` loop of the source is a structural recursion over the vector it walks.
-/

namespace Airline

/-! ## Data model -/

/-- class Flight.  The price is a double in the source; no operation below computes with it
or compares it, so it is carried as an exact rational. -/
structure Flight where
  flightNumber : String
  origin : String
  destination : String
  date : String
  time : String
  price : Rat
  totalSeats : Int
deriving DecidableEq, Repr

/-- class Booking. -/
structure Booking where
  bookingID : String
  passengerUsername : String
  flightNumber : String
  seatNumber : Int
  cancelled : Bool
deriving DecidableEq, Repr

/-- The four-argument constructor of Booking: cancelled starts as false. -/
def Booking.new (bID pUser fNum : String) (seat : Int) : Booking :=
  { bookingID := bID, passengerUsername := pUser, flightNumber := fNum,
    seatNumber := seat, cancelled := false }

/-- class Passenger (the username and password of its base class User). -/
structure Passenger where
  username : String
  password : String
deriving DecidableEq, Repr

/-- Passenger::login. -/
def Passenger.login (self : Passenger) (u p : String) : Bool :=
  u == self.username && p == self.password

/-- The state of class AirlineSystem: the passenger, flight and booking vectors, and the
static counter of generateBookingID (zero when the process starts). -/
structure AirlineSystem where
  passengers : List Passenger
  flights : List Flight
  bookings : List Booking
  counter : Int
deriving DecidableEq, Repr

/-- The failure messages of the source, under the names the specification gives them. -/
inductive Error where
  | duplicateKey
  | notFound
  | flightNotFound
  | seatUnavailable
  | alreadyCancelled
  | invalidCredentials
deriving DecidableEq, Repr

/-- What an operation reports: a value on success, an error otherwise. -/
inductive Outcome (α : Type) where
  | ok (value : α)
  | fail (err : Error)
deriving DecidableEq, Repr

/-! ## Machine integers and text -/

/-- Reduction of an integer to the range of a 32-bit int (two's complement wrap-around). -/
def wrapInt32 (x : Int) : Int :=
  (x + 2147483648) % 4294967296 - 2147483648

/-- std::to_string on an int: decimal digits, with a leading minus sign when negative. -/
def to_string (n : Int) : String :=
  toString n

/-- Booking::toCSV. -/
def Booking.toCSV (b : Booking) : String :=
  b.bookingID ++ "," ++ b.passengerUsername ++ "," ++ b.flightNumber ++ ","
    ++ to_string b.seatNumber ++ "," ++ (if b.cancelled then "1" else "0")

/-- AirlineSystem::saveBookings: the lines written to the booking file, one per booking, in
vector order. -/
def saveBookings (bookings : List Booking) : List String :=
  bookings.map Booking.toCSV

/-! ## Lookups -/

/-- AirlineSystem::findPassenger: the first passenger with the given username. -/
def findPassenger : List Passenger → String → Option Passenger
  | [], _ => none
  | p :: rest, uname => if p.username = uname then some p else findPassenger rest uname

/-- AirlineSystem::findFlight: the first flight with the given flight number. -/
def findFlight : List Flight → String → Option Flight
  | [], _ => none
  | f :: rest, flightNumber =>
    if f.flightNumber = flightNumber then some f else findFlight rest flightNumber

/-- The scanning loop of isSeatAvailable: false as soon as a booking that is not cancelled has
the flight number and the seat number, true when the loop runs to its end. -/
def seatFreeLoop : List Booking → String → Int → Bool
  | [], _, _ => true
  | b :: rest, flightNumber, seatNumber =>
    if !b.cancelled && b.flightNumber == flightNumber && b.seatNumber == seatNumber then false
    else seatFreeLoop rest flightNumber seatNumber

/-- AirlineSystem::isSeatAvailable. -/
def isSeatAvailable (sys : AirlineSystem) (flightNumber : String) (seatNumber : Int) : Bool :=
  match findFlight sys.flights flightNumber with
  | none => false
  | some f =>
    if seatNumber < 1 || seatNumber > f.totalSeats then false
    else seatFreeLoop sys.bookings flightNumber seatNumber

/-- AirlineSystem::viewBookingHistory: the bookings it displays for a passenger, in vector
order. -/
def viewBookingHistory (sys : AirlineSystem) (username : String) : List Booking :=
  sys.bookings.filter (fun b => b.passengerUsername == username)

/-! ## Catalog -/

/-- The duplicate check of addFlight: whether some flight already has the number. -/
def flightNumberExists : List Flight → String → Bool
  | [], _ => false
  | f :: rest, fn => if f.flightNumber = fn then true else flightNumberExists rest fn

/-- AirlineSystem::addFlight, on the flight built from the values read. -/
def addFlight (sys : AirlineSystem) (nf : Flight) : Outcome Unit × AirlineSystem :=
  if flightNumberExists sys.flights nf.flightNumber then (.fail .duplicateKey, sys)
  else (.ok (), { sys with flights := sys.flights ++ [nf] })

/-- The erasing loop of removeFlight: the vector without the first flight that has the
number, or none when the loop ends without a match. -/
def eraseFlight : List Flight → String → Option (List Flight)
  | [], _ => none
  | f :: rest, fn =>
    if f.flightNumber = fn then some rest
    else match eraseFlight rest fn with
      | some rest1 => some (f :: rest1)
      | none => none

/-- AirlineSystem::removeFlight.  The source returns early, before asking for a number,
when the flight vector is empty ("No flights available to remove."); that path and the
"Flight number not found." path are both reported as notFound. -/
def removeFlight (sys : AirlineSystem) (fn : String) : Outcome Unit × AirlineSystem :=
  if sys.flights.isEmpty then (.fail .notFound, sys)
  else match eraseFlight sys.flights fn with
    | some fl => (.ok (), { sys with flights := fl })
    | none => (.fail .notFound, sys)

/-! ## Directory -/

/-- AirlineSystem::passengerRegister. -/
def passengerRegister (sys : AirlineSystem) (uname pwd : String) : Outcome Unit × AirlineSystem :=
  match findPassenger sys.passengers uname with
  | some _ => (.fail .duplicateKey, sys)
  | none => (.ok (), { sys with passengers := sys.passengers ++ [⟨uname, pwd⟩] })

/-- AirlineSystem::passengerLogin: the passenger logged in, or invalidCredentials where the
source returns nullptr. -/
def passengerLogin (sys : AirlineSystem) (uname pwd : String) : Outcome Passenger :=
  match findPassenger sys.passengers uname with
  | some p => if p.login uname pwd then .ok p else .fail .invalidCredentials
  | none => .fail .invalidCredentials

/-! ## Ledger -/

/-- AirlineSystem::generateBookingID: the identifier and the new value of the static counter.
The increment of the int counter is taken modulo 2^32. -/
def generateBookingID (counter : Int) (username flightNumber : String) : String × Int :=
  let c := wrapInt32 (counter + 1)
  (username ++ "_" ++ flightNumber ++ "_" ++ to_string c, c)

/-- AirlineSystem::bookTicket for the passenger with the given username, from the point
where the seat prompt has returned: seatNum is the value getInt handed back.  The prompt
itself, which only lets values between 1 and the seat count of the flight through, is part
of bookTicketPrompted below. -/
def bookTicket (sys : AirlineSystem) (username flightNum : String) (seatNum : Int) :
    Outcome String × AirlineSystem :=
  match findFlight sys.flights flightNum with
  | none => (.fail .flightNotFound, sys)
  | some _ =>
    if !isSeatAvailable sys flightNum seatNum then (.fail .seatUnavailable, sys)
    else
      let g := generateBookingID sys.counter username flightNum
      (.ok g.1, { sys with
        bookings := sys.bookings ++ [Booking.new g.1 username flightNum seatNum],
        counter := g.2 })

/-- The helper getInt on what is typed at the console, one entry per line typed: none for
a line that does not read as an int, some v for the value read.  A line that does not read
or a value outside minVal..maxVal is refused and the next line is read; the first value in
range is returned with the lines left.  When the lines run out the source keeps asking and
never returns, which is none here. -/
def getInt : List (Option Int) → Int → Int → Option (Int × List (Option Int))
  | [], _, _ => none
  | none :: rest, minVal, maxVal => getInt rest minVal maxVal
  | some value :: rest, minVal, maxVal =>
    if value < minVal ∨ value > maxVal then getInt rest minVal maxVal
    else some (value, rest)

/-- AirlineSystem::bookTicket with its seat prompt, for the passenger with the given
username, the flight number typed and the lines typed at the seat prompt.  The result is
none when the prompt never returns. -/
def bookTicketPrompted (sys : AirlineSystem) (username flightNum : String)
    (inputs : List (Option Int)) : Option (Outcome String × AirlineSystem) :=
  match findFlight sys.flights flightNum with
  | none => some (.fail .flightNotFound, sys)
  | some f =>
    match getInt inputs 1 f.totalSeats with
    | none => none
    | some (seatNum, _) =>
      if !isSeatAvailable sys flightNum seatNum then some (.fail .seatUnavailable, sys)
      else
        let g := generateBookingID sys.counter username flightNum
        some (.ok g.1, { sys with
          bookings := sys.bookings ++ [Booking.new g.1 username flightNum seatNum],
          counter := g.2 })

/-- The loop of cancelBooking over the booking vector: the first booking with the identifier
and the owner decides the outcome; it is flagged when it was not cancelled yet. -/
def cancelLoop : List Booking → String → String → Outcome Unit × List Booking
  | [], _, _ => (.fail .notFound, [])
  | b :: rest, bookingID, username =>
    if b.bookingID = bookingID ∧ b.passengerUsername = username then
      if b.cancelled then (.fail .alreadyCancelled, b :: rest)
      else (.ok (), { b with cancelled := true } :: rest)
    else
      let r := cancelLoop rest bookingID username
      (r.1, b :: r.2)

/-- AirlineSystem::cancelBooking for the passenger with the given username. -/
def cancelBooking (sys : AirlineSystem) (bookingID username : String) :
    Outcome Unit × AirlineSystem :=
  let r := cancelLoop sys.bookings bookingID username
  (r.1, { sys with bookings := r.2 })

/-! ## Operations as a transition system -/

/-- The state-changing operations of the system. -/
inductive Op where
  | book (username flightNum : String) (seatNum : Int)
  | cancel (bookingID username : String)
  | addFlight (nf : Flight)
  | removeFlight (fn : String)
  | register (uname pwd : String)
deriving DecidableEq, Repr

/-- The state after one operation, whether it succeeded or failed. -/
def step (sys : AirlineSystem) : Op → AirlineSystem
  | .book u f s => (bookTicket sys u f s).2
  | .cancel id u => (cancelBooking sys id u).2
  | .addFlight nf => (addFlight sys nf).2
  | .removeFlight fn => (removeFlight sys fn).2
  | .register u p => (passengerRegister sys u p).2

/-- The state after a sequence of operations. -/
def run (sys : AirlineSystem) : List Op → AirlineSystem
  | [] => sys
  | op :: ops => run (step sys op) ops

/-- The system of a fresh process with no data files: all vectors empty, counter zero. -/
def AirlineSystem.empty : AirlineSystem :=
  { passengers := [], flights := [], bookings := [], counter := 0 }

/-- The flight of the AA1 scenario. -/
def flightAA1 : Flight :=
  { flightNumber := "AA1", origin := "NYC", destination := "LAX", date := "2024-01-01",
    time := "10:00", price := Rat.mk' 19999 100 (by decide) (by decide), totalSeats := 2 }

/-- Whether the operation turns the cancelled flag of the booking at position i of the
ledger from false to true. -/
def setsCancelled (i : Nat) (sys : AirlineSystem) (op : Op) : Bool :=
  (sys.bookings[i]?.map (fun b => b.cancelled) == some false) &&
    ((step sys op).bookings[i]?.map (fun b => b.cancelled) == some true)

/-- Whether no operation of the sequence, run from the state, sets the cancelled flag of the
booking at position i. -/
def neverSetsCancelled (i : Nat) : AirlineSystem → List Op → Bool
  | _, [] => true
  | sys, op :: ops => !setsCancelled i sys op && neverSetsCancelled i (step sys op) ops

/-- A system with the AA1 flight, two registered passengers and no booking. -/
def sysAA1 : AirlineSystem :=
  { passengers := [⟨"alice", "pw1"⟩, ⟨"bob", "pw2"⟩], flights := [flightAA1], bookings := [],
    counter := 0 }

/-- The system a second process run starts from after a first run in which alice booked
seat 1 of AA1 and cancelled it: the booking file is loaded, the counter is zero again. -/
def sysRestarted : AirlineSystem :=
  { passengers := [⟨"alice", "pw1"⟩, ⟨"bob", "pw2"⟩], flights := [flightAA1],
    bookings := [⟨"alice_AA1_1", "alice", "AA1", 1, true⟩], counter := 0 }

/-- A system whose flight file held two lines with the flight number AA1, with an active
booking on that number. -/
def sysTwoAA1 : AirlineSystem :=
  { passengers := [⟨"alice", "pw1"⟩],
    flights := [flightAA1, { flightAA1 with origin := "BOS", totalSeats := 5 }],
    bookings := [⟨"alice_AA1_1", "alice", "AA1", 1, false⟩], counter := 1 }

/-- The state after a sequence of register calls, each given as (username, password). -/
def registerAll (sys : AirlineSystem) : List (String × String) → AirlineSystem
  | [] => sys
  | c :: rest => registerAll (passengerRegister sys c.1 c.2).2 rest

/-- The password of the first register call of the sequence made for the username, if any. -/
def firstPassword : List (String × String) → String → Option String
  | [], _ => none
  | c :: rest, u => if c.1 = u then some c.2 else firstPassword rest u

/-! ## Record codec and loading of the booking file -/

/-- The exceptions std::stoi raises. -/
inductive StdException where
  | invalid_argument
  | out_of_range
deriving DecidableEq, Repr

/-- What a function that may raise returns: its value, or the exception raised. -/
inductive Raises (α : Type) where
  | value (v : α)
  | raised (e : StdException)
deriving DecidableEq, Repr

/-- The default constructor of Booking: empty strings, seat 0, not cancelled. -/
def Booking.default : Booking :=
  { bookingID := "", passengerUsername := "", flightNumber := "", seatNumber := 0,
    cancelled := false }

/-- The loop that calls getline(iss, token, delim) and pushes each token, on the characters
still in the stream, with the characters extracted so far for the current token (in
reverse).  A delimiter ends the token, which is pushed, also when it is empty; at the end of
the stream the token is pushed only when some character was extracted for it, otherwise
getline fails and the loop ends. -/
def getlineLoop (delim : Char) : List Char → List Char → List String
  | [], token => if token.isEmpty then [] else [String.mk token.reverse]
  | c :: rest, token =>
    if c = delim then String.mk token.reverse :: getlineLoop delim rest []
    else getlineLoop delim rest (c :: token)

/-- The tokens the getline loop of fromCSV collects from a line. -/
def getlineTokens (line : String) : List String :=
  getlineLoop ',' line.data []

/-- The C function isspace in the default locale: space, and the controls 9 to 13. -/
def isspace (c : Char) : Bool :=
  c.toNat = 32 || (9 ≤ c.toNat && c.toNat ≤ 13)

/-- The C function isdigit. -/
def isdigit (c : Char) : Bool :=
  48 ≤ c.toNat && c.toNat ≤ 57

/-- The number a sequence of decimal digits denotes. -/
def digitsValue (ds : List Char) : Nat :=
  ds.foldl (fun acc c => 10 * acc + (c.toNat - 48)) 0

/-- std::stoi (base 10): leading white space is skipped, one sign is accepted, then the
longest run of digits is converted and what follows is ignored.  It raises invalid_argument
when there is no digit, and out_of_range when the number does not fit an int. -/
def stoi (str : String) : Raises Int :=
  match str.data.dropWhile isspace with
  | [] => .raised .invalid_argument
  | c :: rest =>
    let negative := decide (c = '-')
    let body := if c = '-' ∨ c = '+' then rest else c :: rest
    let ds := body.takeWhile isdigit
    if ds.isEmpty then .raised .invalid_argument
    else
      let v : Int := if negative then -(digitsValue ds : Int) else (digitsValue ds : Int)
      if v < -2147483648 ∨ v > 2147483647 then .raised .out_of_range else .value v

/-- Booking::fromCSV.  The default booking is returned when the line does not have five
tokens; an exception of stoi on the fourth token leaves the function. -/
def Booking.fromCSV (line : String) : Raises Booking :=
  match getlineTokens line with
  | [t0, t1, t2, t3, t4] =>
    match stoi t3 with
    | .raised e => .raised e
    | .value seat =>
      .value { bookingID := t0, passengerUsername := t1, flightNumber := t2,
               seatNumber := seat, cancelled := t4 == "1" }
  | _ => .value Booking.default

/-- The reading loop of loadBookings over the lines of the file: a decoded booking is
appended when its identifier is not empty; an exception raised by fromCSV is not caught. -/
def loadLoop : List Booking → List String → Raises (List Booking)
  | bookings, [] => .value bookings
  | bookings, line :: rest =>
    match Booking.fromCSV line with
    | .raised e => .raised e
    | .value b =>
      if b.bookingID = "" then loadLoop bookings rest
      else loadLoop (bookings ++ [b]) rest

/-- AirlineSystem::loadBookings on the booking vector, given the lines of the booking file,
or none when the file cannot be opened (the vector is then left as it is). -/
def loadBookings (bookings : List Booking) : Option (List String) → Raises (List Booking)
  | none => .value bookings
  | some lines => loadLoop bookings lines

/-- The identifiers handed out by successive calls of generateBookingID, each call given as
(username, flightNumber), starting from a value of the static counter. -/
def generateSeq (counter : Int) : List (String × String) → List String
  | [] => []
  | c :: rest =>
    (generateBookingID counter c.1 c.2).1 ::
      generateSeq (generateBookingID counter c.1 c.2).2 rest

/-- The identifiers returned by the successful book calls of a sequence of operations, in
the order of the calls. -/
def bookedIDs (sys : AirlineSystem) : List Op → List String
  | [] => []
  | op :: ops =>
    match op with
    | .book u f s =>
      match (bookTicket sys u f s).1 with
      | .ok id => id :: bookedIDs (step sys op) ops
      | .fail _ => bookedIDs (step sys op) ops
    | _ => bookedIDs (step sys op) ops

/-- A system whose flight file held a line with a seat count of zero. -/
def sysNoSeats : AirlineSystem :=
  { passengers := [⟨"alice", "pw1"⟩],
    flights := [{ flightAA1 with flightNumber := "ZZ0", totalSeats := 0 }],
    bookings := [], counter := 0 }

/-! ## Seat uniqueness -/

/-- Two bookings clash when both are active (not cancelled) and they have the same flight
number and the same seat number. -/
@[reducible] def SeatClash (a b : Booking) : Prop :=
  a.cancelled = false ∧ b.cancelled = false ∧ a.flightNumber = b.flightNumber ∧
    a.seatNumber = b.seatNumber

/-- Seat uniqueness of a ledger: no two bookings at different positions clash. -/
@[reducible] def SeatUnique (bookings : List Booking) : Prop :=
  bookings.Pairwise (fun a b => ¬ SeatClash a b)

/-! ## Lemmas on the loops -/

theorem getElem?_append_cons_length {α : Type} (pre post : List α) (x : α) :
    (pre ++ x :: post)[pre.length]? = some x := by
  induction pre with
  | nil => simp
  | cons y rest ih => simpa using ih

theorem seatFreeLoop_iff (bs : List Booking) (f : String) (s : Int) :
    seatFreeLoop bs f s = true ↔
      ∀ b ∈ bs, ¬ (b.cancelled = false ∧ b.flightNumber = f ∧ b.seatNumber = s) := by
  induction bs with
  | nil => simp [seatFreeLoop]
  | cons b rest ih =>
    unfold seatFreeLoop
    by_cases hb : b.cancelled = false ∧ b.flightNumber = f ∧ b.seatNumber = s
    · obtain ⟨h1, h2, h3⟩ := hb
      simp [h1, h2, h3]
    · have hcond : (!b.cancelled && b.flightNumber == f && b.seatNumber == s) = false := by
        rw [Bool.eq_false_iff]
        intro hcon
        simp only [Bool.and_eq_true, Bool.not_eq_true', beq_iff_eq] at hcon
        exact hb ⟨hcon.1.1, hcon.1.2, hcon.2⟩
      rw [hcond]
      simp only [Bool.false_eq_true, if_false, ih, List.mem_cons, forall_eq_or_imp]
      exact ⟨fun h => ⟨hb, h⟩, fun h => h.2⟩

theorem seatFreeLoop_eq_false_iff (bs : List Booking) (f : String) (s : Int) :
    seatFreeLoop bs f s = false ↔
      ∃ b ∈ bs, b.cancelled = false ∧ b.flightNumber = f ∧ b.seatNumber = s := by
  rw [← Bool.not_eq_true, seatFreeLoop_iff]
  push_neg
  rfl

theorem findFlight_some_iff (fs : List Flight) (fn : String) (fl : Flight) :
    findFlight fs fn = some fl ↔
      ∃ pre post, fs = pre ++ fl :: post ∧ fl.flightNumber = fn ∧
        ∀ g ∈ pre, g.flightNumber ≠ fn := by
  induction fs with
  | nil => simp [findFlight]
  | cons f rest ih =>
    unfold findFlight
    by_cases hf : f.flightNumber = fn
    · simp only [hf, if_true, Option.some.injEq]
      constructor
      · rintro rfl
        exact ⟨[], rest, rfl, hf, by simp⟩
      · rintro ⟨pre, post, heq, _, hpre⟩
        cases pre with
        | nil => simp at heq; exact heq.1
        | cons g pre1 =>
          simp at heq
          exact absurd (heq.1 ▸ hf) (hpre g (by simp))
    · simp only [hf, if_false, ih]
      constructor
      · rintro ⟨pre, post, heq, h1, hpre⟩
        refine ⟨f :: pre, post, by simp [heq], h1, ?_⟩
        intro g hg
        rcases List.mem_cons.1 hg with rfl | hg
        · exact hf
        · exact hpre g hg
      · rintro ⟨pre, post, heq, h1, hpre⟩
        cases pre with
        | nil =>
          simp at heq
          exact absurd (heq.1 ▸ h1) hf
        | cons g pre1 =>
          simp at heq
          exact ⟨pre1, post, heq.2, h1, fun x hx => hpre x (by simp [hx])⟩

theorem findFlight_isSome_iff (fs : List Flight) (fn : String) :
    (∃ fl, findFlight fs fn = some fl) ↔ ∃ fl ∈ fs, fl.flightNumber = fn := by
  induction fs with
  | nil => simp [findFlight]
  | cons f rest ih =>
    unfold findFlight
    by_cases hf : f.flightNumber = fn
    · simp [hf]
    · simp only [hf, if_false, ih, List.mem_cons, exists_eq_or_imp, false_or]

theorem findFlight_none_iff (fs : List Flight) (fn : String) :
    findFlight fs fn = none ↔ ∀ fl ∈ fs, fl.flightNumber ≠ fn := by
  have h := findFlight_isSome_iff fs fn
  constructor
  · intro hn fl hfl heq
    obtain ⟨g, hg⟩ := h.2 ⟨fl, hfl, heq⟩
    rw [hn] at hg
    cases hg
  · intro hall
    cases hfind : findFlight fs fn with
    | none => rfl
    | some g =>
      obtain ⟨fl, hfl, heq⟩ := h.1 ⟨g, hfind⟩
      exact absurd heq (hall fl hfl)

theorem cancelLoop_length (bs : List Booking) (id u : String) :
    (cancelLoop bs id u).2.length = bs.length := by
  induction bs with
  | nil => rfl
  | cons b rest ih =>
    unfold cancelLoop
    split_ifs <;> simp [ih]

/-- The shape of what the cancel loop does: nothing, or one flag from false to true on the
first booking with the identifier and the owner. -/
theorem cancelLoop_cases (bs : List Booking) (id u : String) :
    ((cancelLoop bs id u).1 = .fail .notFound ∧ (cancelLoop bs id u).2 = bs ∧
        ∀ b ∈ bs, ¬ (b.bookingID = id ∧ b.passengerUsername = u)) ∨
    ((cancelLoop bs id u).1 = .fail .alreadyCancelled ∧ (cancelLoop bs id u).2 = bs ∧
        ∃ pre b post, bs = pre ++ b :: post ∧ b.bookingID = id ∧ b.passengerUsername = u ∧
          b.cancelled = true ∧ ∀ x ∈ pre, ¬ (x.bookingID = id ∧ x.passengerUsername = u)) ∨
    ((cancelLoop bs id u).1 = .ok () ∧
        ∃ pre b post, bs = pre ++ b :: post ∧ b.bookingID = id ∧ b.passengerUsername = u ∧
          b.cancelled = false ∧ (∀ x ∈ pre, ¬ (x.bookingID = id ∧ x.passengerUsername = u)) ∧
          (cancelLoop bs id u).2 = pre ++ { b with cancelled := true } :: post) := by
  induction bs with
  | nil => left; simp [cancelLoop]
  | cons b rest ih =>
    unfold cancelLoop
    by_cases hm : b.bookingID = id ∧ b.passengerUsername = u
    · rw [if_pos hm]
      cases hc : b.cancelled
      · right; right
        simp only [Bool.false_eq_true, if_false, true_and]
        exact ⟨[], b, rest, rfl, hm.1, hm.2, hc, by simp, rfl⟩
      · right; left
        simp only [if_true, true_and]
        exact ⟨[], b, rest, rfl, hm.1, hm.2, hc, by simp⟩
    · rw [if_neg hm]
      rcases ih with ⟨h1, h2, h3⟩ | ⟨h1, h2, pre, x, post, h3, h4, h5, h6, h7⟩ |
        ⟨h1, pre, x, post, h3, h4, h5, h6, h7, h8⟩
      · left
        refine ⟨h1, by simp [h2], ?_⟩
        intro y hy
        rcases List.mem_cons.1 hy with rfl | hy
        · exact hm
        · exact h3 y hy
      · right; left
        refine ⟨h1, by simp [h2], b :: pre, x, post, by simp [h3], h4, h5, h6, ?_⟩
        intro y hy
        rcases List.mem_cons.1 hy with rfl | hy
        · exact hm
        · exact h7 y hy
      · right; right
        refine ⟨h1, b :: pre, x, post, by simp [h3], h4, h5, h6, ?_, by simp [h8]⟩
        intro y hy
        rcases List.mem_cons.1 hy with rfl | hy
        · exact hm
        · exact h7 y hy

theorem seatUnique_set_cancelled (pre post : List Booking) (b : Booking)
    (h : SeatUnique (pre ++ b :: post)) :
    SeatUnique (pre ++ { b with cancelled := true } :: post) := by
  unfold SeatUnique at h ⊢
  rw [List.pairwise_append] at h ⊢
  obtain ⟨h1, h2, h3⟩ := h
  rw [List.pairwise_cons] at h2 ⊢
  refine ⟨h1, ⟨?_, h2.2⟩, ?_⟩
  · intro a _ hc
    exact absurd hc.1 (by simp)
  · intro a ha x hx
    rcases List.mem_cons.1 hx with rfl | hx
    · intro hc
      exact absurd hc.2.1 (by simp)
    · exact h3 a ha x (by simp [hx])

theorem cancelLoop_seatUnique (bs : List Booking) (id u : String) (h : SeatUnique bs) :
    SeatUnique (cancelLoop bs id u).2 := by
  rcases cancelLoop_cases bs id u with ⟨_, h2, _⟩ | ⟨_, h2, _⟩ |
    ⟨_, pre, b, post, h3, _, _, _, _, h8⟩
  · rw [h2]; exact h
  · rw [h2]; exact h
  · rw [h8]
    rw [h3] at h
    exact seatUnique_set_cancelled pre post b h

theorem bookTicket_seatUnique (sys : AirlineSystem) (u f : String) (s : Int)
    (h : SeatUnique sys.bookings) : SeatUnique (bookTicket sys u f s).2.bookings := by
  unfold bookTicket
  cases hfl : findFlight sys.flights f with
  | none => exact h
  | some fl =>
    cases hav : isSeatAvailable sys f s with
    | false => simpa using h
    | true =>
      simp only [Bool.not_true, Bool.false_eq_true, if_false]
      have hfree : seatFreeLoop sys.bookings f s = true := by
        unfold isSeatAvailable at hav
        rw [hfl] at hav
        simp only at hav
        split_ifs at hav
        exact hav
      rw [seatFreeLoop_iff] at hfree
      unfold SeatUnique
      rw [List.pairwise_append]
      refine ⟨h, by simp, ?_⟩
      intro a ha x hx
      rw [List.mem_singleton] at hx
      subst hx
      intro hc
      exact hfree a ha ⟨hc.1, hc.2.2.1, hc.2.2.2⟩

theorem step_seatUnique (sys : AirlineSystem) (op : Op) (h : SeatUnique sys.bookings) :
    SeatUnique (step sys op).bookings := by
  cases op with
  | book u f s => exact bookTicket_seatUnique sys u f s h
  | cancel id u => exact cancelLoop_seatUnique sys.bookings id u h
  | addFlight nf =>
    simp only [step, addFlight]
    split_ifs <;> exact h
  | removeFlight fn =>
    simp only [step, removeFlight]
    split_ifs
    · exact h
    · cases eraseFlight sys.flights fn <;> exact h
  | register un pw =>
    simp only [step, passengerRegister]
    cases findPassenger sys.passengers un <;> exact h

theorem run_seatUnique (ops : List Op) (sys : AirlineSystem) (h : SeatUnique sys.bookings) :
    SeatUnique (run sys ops).bookings := by
  induction ops generalizing sys with
  | nil => exact h
  | cons op rest ih => exact ih (step sys op) (step_seatUnique sys op h)

theorem cancelLoop_getElem? (bs : List Booking) (id u : String) (i : Nat) (b : Booking)
    (h : bs[i]? = some b) :
    (cancelLoop bs id u).2[i]? = some b ∨
      (b.cancelled = false ∧ b.bookingID = id ∧ b.passengerUsername = u ∧
        (cancelLoop bs id u).2[i]? = some { b with cancelled := true }) := by
  induction bs generalizing i with
  | nil => simp at h
  | cons x rest ih =>
    unfold cancelLoop
    by_cases hm : x.bookingID = id ∧ x.passengerUsername = u
    · rw [if_pos hm]
      cases hc : x.cancelled
      · simp only [Bool.false_eq_true, if_false]
        cases i with
        | zero =>
          simp only [List.getElem?_cons_zero, Option.some.injEq] at h
          subst h
          right
          exact ⟨hc, hm.1, hm.2, by simp⟩
        | succ j =>
          left
          simpa using h
      · simp only [if_true]
        left
        exact h
    · rw [if_neg hm]
      cases i with
      | zero =>
        left
        simpa using h
      | succ j =>
        simp only [List.getElem?_cons_succ] at h ⊢
        exact ih j h

theorem step_getElem? (sys : AirlineSystem) (op : Op) (i : Nat) (b : Booking)
    (h : sys.bookings[i]? = some b) :
    (step sys op).bookings[i]? = some b ∨
      (b.cancelled = false ∧ (step sys op).bookings[i]? = some { b with cancelled := true }) := by
  cases op with
  | book u f s =>
    left
    simp only [step, bookTicket]
    cases findFlight sys.flights f with
    | none => exact h
    | some fl =>
      simp only
      split_ifs
      · exact h
      · simp only
        rw [List.getElem?_append_left]
        · exact h
        · by_contra hlt
          rw [List.getElem?_eq_none (by omega)] at h
          cases h
  | cancel id u =>
    rcases cancelLoop_getElem? sys.bookings id u i b h with h1 | ⟨h1, _, _, h4⟩
    · left; exact h1
    · right; exact ⟨h1, h4⟩
  | addFlight nf =>
    left
    simp only [step, addFlight]
    split_ifs <;> exact h
  | removeFlight fn =>
    left
    simp only [step, removeFlight]
    split_ifs
    · exact h
    · cases eraseFlight sys.flights fn <;> exact h
  | register un pw =>
    left
    simp only [step, passengerRegister]
    cases findPassenger sys.passengers un <;> exact h

theorem isSeatAvailable_false_of_active (sys : AirlineSystem) (f : String) (s : Int)
    (b : Booking) (hb : b ∈ sys.bookings) (hc : b.cancelled = false)
    (hf : b.flightNumber = f) (hs : b.seatNumber = s) : isSeatAvailable sys f s = false := by
  unfold isSeatAvailable
  cases findFlight sys.flights f with
  | none => rfl
  | some fl =>
    simp only
    split_ifs
    · rfl
    · exact (seatFreeLoop_eq_false_iff sys.bookings f s).2 ⟨b, hb, hc, hf, hs⟩

theorem run_keeps_active (ops : List Op) (sys : AirlineSystem) (i : Nat) (b : Booking)
    (h : sys.bookings[i]? = some b) (hc : b.cancelled = false)
    (hn : neverSetsCancelled i sys ops = true) : (run sys ops).bookings[i]? = some b := by
  induction ops generalizing sys with
  | nil => exact h
  | cons op rest ih =>
    simp only [neverSetsCancelled, Bool.and_eq_true, Bool.not_eq_true'] at hn
    obtain ⟨hn1, hn2⟩ := hn
    have hstep : (step sys op).bookings[i]? = some b := by
      rcases step_getElem? sys op i b h with h1 | ⟨_, h1⟩
      · exact h1
      · exfalso
        simp [setsCancelled, h, h1, hc] at hn1
    exact ih (step sys op) hstep hn2

theorem bookTicket_ok (sys : AirlineSystem) (u f : String) (s : Int) (id : String)
    (h : (bookTicket sys u f s).1 = .ok id) :
    isSeatAvailable sys f s = true ∧ id = (generateBookingID sys.counter u f).1 ∧
      (bookTicket sys u f s).2 =
        { sys with
            bookings := sys.bookings ++ [Booking.new id u f s],
            counter := (generateBookingID sys.counter u f).2 } := by
  unfold bookTicket at h ⊢
  cases hfl : findFlight sys.flights f with
  | none => rw [hfl] at h; simp at h
  | some fl =>
    rw [hfl] at h
    cases hav : isSeatAvailable sys f s with
    | false => simp [hav] at h
    | true =>
      simp only [hav, Bool.not_true, Bool.false_eq_true, if_false, Outcome.ok.injEq] at h
      subst h
      simp

theorem bookTicket_available (sys : AirlineSystem) (u f : String) (s : Int)
    (hav : isSeatAvailable sys f s = true) :
    bookTicket sys u f s =
      (.ok (generateBookingID sys.counter u f).1,
        { sys with
            bookings := sys.bookings ++
              [Booking.new (generateBookingID sys.counter u f).1 u f s],
            counter := (generateBookingID sys.counter u f).2 }) := by
  unfold bookTicket
  cases hfl : findFlight sys.flights f with
  | none =>
    unfold isSeatAvailable at hav
    rw [hfl] at hav
    cases hav
  | some fl =>
    simp only [hav, Bool.not_true, Bool.false_eq_true, if_false]

theorem cancelLoop_first (pre post : List Booking) (b : Booking) (id u : String)
    (hpre : ∀ x ∈ pre, ¬ (x.bookingID = id ∧ x.passengerUsername = u))
    (hid : b.bookingID = id) (hu : b.passengerUsername = u) :
    cancelLoop (pre ++ b :: post) id u =
      if b.cancelled then (.fail .alreadyCancelled, pre ++ b :: post)
      else (.ok (), pre ++ { b with cancelled := true } :: post) := by
  induction pre with
  | nil =>
    simp only [List.nil_append]
    unfold cancelLoop
    rw [if_pos ⟨hid, hu⟩]
  | cons x rest ih =>
    simp only [List.cons_append]
    unfold cancelLoop
    rw [if_neg (hpre x (by simp))]
    rw [ih (fun y hy => hpre y (by simp [hy]))]
    split_ifs <;> rfl

theorem flightNumberExists_iff (fs : List Flight) (fn : String) :
    flightNumberExists fs fn = true ↔ ∃ fl ∈ fs, fl.flightNumber = fn := by
  induction fs with
  | nil => simp [flightNumberExists]
  | cons f rest ih =>
    unfold flightNumberExists
    by_cases hf : f.flightNumber = fn
    · simp [hf]
    · simp only [hf, if_false, ih, List.mem_cons, exists_eq_or_imp, false_or]

theorem eraseFlight_none_iff (fs : List Flight) (fn : String) :
    eraseFlight fs fn = none ↔ ∀ fl ∈ fs, fl.flightNumber ≠ fn := by
  induction fs with
  | nil => simp [eraseFlight]
  | cons f rest ih =>
    unfold eraseFlight
    by_cases hf : f.flightNumber = fn
    · simp [hf]
    · rw [if_neg hf]
      cases he : eraseFlight rest fn with
      | none =>
        rw [he] at ih
        have ih1 := ih.1 rfl
        constructor
        · intro _ fl hfl
          rcases List.mem_cons.1 hfl with rfl | hfl
          · exact hf
          · exact ih1 fl hfl
        · intro _
          rfl
      | some r =>
        rw [he] at ih
        constructor
        · intro h
          cases h
        · intro hall
          have hbad := ih.2 (fun fl hfl => hall fl (by simp [hfl]))
          cases hbad

theorem eraseFlight_some (fs : List Flight) (fn : String) (r : List Flight)
    (h : eraseFlight fs fn = some r) :
    ∃ pre fl post, fs = pre ++ fl :: post ∧ fl.flightNumber = fn ∧
      (∀ g ∈ pre, g.flightNumber ≠ fn) ∧ r = pre ++ post := by
  induction fs generalizing r with
  | nil => simp [eraseFlight] at h
  | cons f rest ih =>
    unfold eraseFlight at h
    by_cases hf : f.flightNumber = fn
    · rw [if_pos hf] at h
      cases h
      exact ⟨[], f, rest, rfl, hf, by simp, rfl⟩
    · rw [if_neg hf] at h
      cases he : eraseFlight rest fn with
      | none => rw [he] at h; cases h
      | some r1 =>
        rw [he] at h
        cases h
        obtain ⟨pre, fl, post, h1, h2, h3, h4⟩ := ih r1 he
        refine ⟨f :: pre, fl, post, by simp [h1], h2, ?_, by simp [h4]⟩
        intro g hg
        rcases List.mem_cons.1 hg with rfl | hg
        · exact hf
        · exact h3 g hg

/-- The add operation keeps the flight numbers of the catalog pairwise distinct. -/
theorem addFlight_keeps_numbers_distinct (sys : AirlineSystem) (nf : Flight)
    (h : (sys.flights.map (fun fl => fl.flightNumber)).Nodup) :
    ((addFlight sys nf).2.flights.map (fun fl => fl.flightNumber)).Nodup := by
  unfold addFlight
  by_cases hex : flightNumberExists sys.flights nf.flightNumber = true
  · rw [if_pos hex]
    exact h
  · rw [if_neg hex]
    simp only [List.map_append, List.map_cons, List.map_nil]
    rw [List.nodup_append]
    refine ⟨h, by simp, ?_⟩
    intro a ha hb
    rw [List.mem_singleton] at hb
    subst hb
    obtain ⟨fl, hfl, hnum⟩ := List.mem_map.1 ha
    exact hex ((flightNumberExists_iff sys.flights nf.flightNumber).2 ⟨fl, hfl, hnum⟩)

theorem findPassenger_append_one (l : List Passenger) (x : Passenger) (u : String) :
    findPassenger (l ++ [x]) u =
      match findPassenger l u with
      | some a => some a
      | none => if x.username = u then some x else none := by
  induction l with
  | nil => simp [findPassenger]
  | cons y rest ih =>
    simp only [List.cons_append]
    unfold findPassenger
    by_cases hy : y.username = u
    · simp [hy]
    · simp only [hy, if_false]
      exact ih

theorem findPassenger_none_iff (l : List Passenger) (u : String) :
    findPassenger l u = none ↔ u ∉ l.map (fun a => a.username) := by
  induction l with
  | nil => simp [findPassenger]
  | cons y rest ih =>
    unfold findPassenger
    by_cases hy : y.username = u
    · simp [hy]
    · simp only [hy, if_false, ih, List.map_cons, List.mem_cons, not_or]
      exact ⟨fun h => ⟨fun h2 => hy h2.symm, h⟩, fun h => h.2⟩

theorem firstPassword_isSome_iff (calls : List (String × String)) (u : String) :
    (∃ p, firstPassword calls u = some p) ↔ ∃ c ∈ calls, c.1 = u := by
  induction calls with
  | nil => simp [firstPassword]
  | cons c rest ih =>
    unfold firstPassword
    by_cases hc : c.1 = u
    · simp [hc]
    · simp only [hc, if_false, ih, List.mem_cons, exists_eq_or_imp, false_or]

theorem passengerRegister_nodup (sys : AirlineSystem) (u p : String)
    (h : (sys.passengers.map (fun a => a.username)).Nodup) :
    ((passengerRegister sys u p).2.passengers.map (fun a => a.username)).Nodup := by
  unfold passengerRegister
  cases hf : findPassenger sys.passengers u with
  | some a => exact h
  | none =>
    simp only [List.map_append, List.map_cons, List.map_nil]
    rw [List.nodup_append]
    refine ⟨h, by simp, ?_⟩
    intro a ha hb
    rw [List.mem_singleton] at hb
    subst hb
    exact (findPassenger_none_iff sys.passengers a).1 hf ha

theorem registerAll_nodup (calls : List (String × String)) (sys : AirlineSystem)
    (h : (sys.passengers.map (fun a => a.username)).Nodup) :
    ((registerAll sys calls).passengers.map (fun a => a.username)).Nodup := by
  induction calls generalizing sys with
  | nil => exact h
  | cons c rest ih => exact ih _ (passengerRegister_nodup sys c.1 c.2 h)

theorem findPassenger_registerAll (calls : List (String × String)) (sys : AirlineSystem)
    (u : String) :
    findPassenger (registerAll sys calls).passengers u =
      match findPassenger sys.passengers u with
      | some a => some a
      | none => (firstPassword calls u).map (fun p => ⟨u, p⟩) := by
  induction calls generalizing sys with
  | nil =>
    simp only [registerAll, firstPassword, Option.map_none']
    cases findPassenger sys.passengers u <;> rfl
  | cons c rest ih =>
    simp only [registerAll]
    rw [ih]
    unfold passengerRegister
    cases hv : findPassenger sys.passengers c.1 with
    | some a =>
      simp only
      cases hu : findPassenger sys.passengers u with
      | some b => rfl
      | none =>
        simp only
        have hne : ¬ c.1 = u := by
          intro heq
          rw [heq, hu] at hv
          cases hv
        simp [firstPassword, hne]
    | none =>
      simp only
      rw [findPassenger_append_one]
      cases hu : findPassenger sys.passengers u with
      | some b => rfl
      | none =>
        simp only
        by_cases hcu : c.1 = u
        · simp [firstPassword, hcu]
        · simp [firstPassword, hcu]

/-! ## Lemmas on decimal text -/

theorem isdigit_bounds (c : Char) (h : isdigit c = true) : 48 ≤ c.toNat ∧ c.toNat ≤ 57 := by
  simpa [isdigit] using h

theorem isdigit_ne (c d : Char) (h : isdigit c = true) (hd : isdigit d = false) : c ≠ d := by
  intro heq
  rw [heq, hd] at h
  cases h

theorem isdigit_not_isspace (c : Char) (h : isdigit c = true) : isspace c = false := by
  have hb := isdigit_bounds c h
  simp only [isspace, Bool.or_eq_false_iff, decide_eq_false_iff_not, Bool.and_eq_false_imp,
    decide_eq_true_eq]
  omega

theorem digitChar_isdigit (k : Nat) (h : k < 10) :
    isdigit (Nat.digitChar k) = true ∧ (Nat.digitChar k).toNat - 48 = k := by
  interval_cases k <;> decide

theorem digitsValue_concat (ds : List Char) (d : Char) :
    digitsValue (ds ++ [d]) = 10 * digitsValue ds + (d.toNat - 48) := by
  simp [digitsValue, List.foldl_append]

theorem toDigitsCore_append (fuel n : Nat) (ds : List Char) :
    Nat.toDigitsCore 10 fuel n ds = Nat.toDigitsCore 10 fuel n [] ++ ds := by
  induction fuel generalizing n ds with
  | zero => simp [Nat.toDigitsCore]
  | succ fuel ih =>
    simp only [Nat.toDigitsCore]
    split_ifs
    · simp
    · rw [ih (n / 10) (Nat.digitChar (n % 10) :: ds), ih (n / 10) [Nat.digitChar (n % 10)]]
      simp

theorem toDigitsCore_spec (fuel n : Nat) (h : n < fuel) :
    Nat.toDigitsCore 10 fuel n [] ≠ [] ∧
      (∀ c ∈ Nat.toDigitsCore 10 fuel n [], isdigit c = true) ∧
      digitsValue (Nat.toDigitsCore 10 fuel n []) = n := by
  induction fuel generalizing n with
  | zero => omega
  | succ fuel ih =>
    have hd := digitChar_isdigit (n % 10) (Nat.mod_lt n (by decide))
    simp only [Nat.toDigitsCore]
    by_cases hq : n / 10 = 0
    · rw [if_pos hq]
      refine ⟨by simp, ?_, ?_⟩
      · intro c hc
        rw [List.mem_singleton] at hc
        rw [hc]
        exact hd.1
      · have hv := digitsValue_concat [] (Nat.digitChar (n % 10))
        simp only [List.nil_append] at hv
        rw [hv, hd.2]
        simp only [digitsValue, List.foldl_nil]
        omega
    · rw [if_neg hq, toDigitsCore_append]
      obtain ⟨_, h2, h3⟩ := ih (n / 10) (by omega)
      refine ⟨by simp, ?_, ?_⟩
      · intro c hc
        rcases List.mem_append.1 hc with hc | hc
        · exact h2 c hc
        · rw [List.mem_singleton] at hc
          rw [hc]
          exact hd.1
      · rw [digitsValue_concat, h3, hd.2]
        omega

theorem toDigits_spec (n : Nat) :
    Nat.toDigits 10 n ≠ [] ∧ (∀ c ∈ Nat.toDigits 10 n, isdigit c = true) ∧
      digitsValue (Nat.toDigits 10 n) = n :=
  toDigitsCore_spec (n + 1) n (Nat.lt_succ_self n)

theorem to_string_data (n : Int) :
    (to_string n).data =
      match n with
      | Int.ofNat m => Nat.toDigits 10 m
      | Int.negSucc m => [Char.ofNat 45] ++ Nat.toDigits 10 (m + 1) := by
  cases n <;> rfl

theorem takeWhile_all {α : Type} (p : α → Bool) (l : List α) (h : ∀ x ∈ l, p x = true) :
    l.takeWhile p = l := by
  induction l with
  | nil => rfl
  | cons x rest ih =>
    rw [List.takeWhile_cons, h x (by simp)]
    simp only [if_true]
    rw [ih (fun y hy => h y (by simp [hy]))]

theorem stoi_to_string (n : Int) (h1 : -2147483648 ≤ n) (h2 : n ≤ 2147483647) :
    stoi (to_string n) = .value n := by
  unfold stoi
  rw [to_string_data]
  cases n with
  | ofNat m =>
    obtain ⟨hne, hall, hval⟩ := toDigits_spec m
    simp only
    cases hD : Nat.toDigits 10 m with
    | nil => exact absurd hD hne
    | cons c r =>
      rw [hD] at hall hval
      have hc : isdigit c = true := hall c (by simp)
      have hsp : isspace c = false := isdigit_not_isspace c hc
      have hminus : c ≠ '-' := isdigit_ne c '-' hc (by decide)
      have hplus : c ≠ '+' := isdigit_ne c '+' hc (by decide)
      rw [List.dropWhile_cons_of_neg (by simp [hsp])]
      simp only [hminus, hplus, or_self, if_false, decide_False, Bool.false_eq_true]
      rw [takeWhile_all isdigit (c :: r) hall, hval]
      have h2n : (m : Int) ≤ 2147483647 := h2
      have hr : ¬ (((m : Int) < -2147483648) ∨ ((m : Int) > 2147483647)) := by omega
      simp only [List.isEmpty_cons, Bool.false_eq_true, if_false]
      rw [if_neg hr]
      rfl
  | negSucc m =>
    obtain ⟨hne, hall, hval⟩ := toDigits_spec (m + 1)
    simp only
    have hsp : isspace (Char.ofNat 45) = false := by decide
    rw [List.singleton_append, List.dropWhile_cons_of_neg (by simp [hsp])]
    have hm : Char.ofNat 45 = '-' := by decide
    simp only [hm, true_or, if_true, decide_True]
    rw [takeWhile_all isdigit _ hall, hval]
    have hemp : (Nat.toDigits 10 (m + 1)).isEmpty = false := by
      cases hD : Nat.toDigits 10 (m + 1) with
      | nil => exact absurd hD hne
      | cons c r => rfl
    have hneg : Int.negSucc m = -((m + 1 : Nat) : Int) := rfl
    rw [hneg] at h1
    have hr : ¬ ((-((m + 1 : Nat) : Int) < -2147483648) ∨
        (-((m + 1 : Nat) : Int) > 2147483647)) := by
      omega
    simp only [hemp, Bool.false_eq_true, if_false]
    rw [if_neg hr]
    congr 1

theorem to_string_injective (a b : Int) (ha : -2147483648 ≤ a ∧ a ≤ 2147483647)
    (hb : -2147483648 ≤ b ∧ b ≤ 2147483647) (h : to_string a = to_string b) : a = b := by
  have h1 := stoi_to_string a ha.1 ha.2
  rw [h, stoi_to_string b hb.1 hb.2] at h1
  cases h1
  rfl

/-- The characters of the decimal text of an int are digits or the minus sign. -/
theorem to_string_chars (n : Int) (c : Char) (hc : c ∈ (to_string n).data) :
    isdigit c = true ∨ c = '-' := by
  rw [to_string_data] at hc
  cases n with
  | ofNat m => exact Or.inl ((toDigits_spec m).2.1 c hc)
  | negSucc m =>
    simp only [List.singleton_append, List.mem_cons] at hc
    rcases hc with hc | hc
    · right
      rw [hc]
    · exact Or.inl ((toDigits_spec (m + 1)).2.1 c hc)

theorem to_string_no_sep (n : Int) (d : Char) (hd : isdigit d = false) (hm : d ≠ '-') :
    d ∉ (to_string n).data := by
  intro hmem
  rcases to_string_chars n d hmem with h | h
  · rw [hd] at h
    cases h
  · exact hm h

/-! ## Lemmas on the codec -/

theorem getlineLoop_token (delim : Char) (a rest token : List Char) (h : delim ∉ a) :
    getlineLoop delim (a ++ delim :: rest) token =
      String.mk (token.reverse ++ a) :: getlineLoop delim rest [] := by
  induction a generalizing token with
  | nil => simp [getlineLoop]
  | cons c a1 ih =>
    have hc : ¬ c = delim := fun heq => h (by simp [heq])
    rw [List.cons_append, getlineLoop, if_neg hc,
      ih (c :: token) (fun hmem => h (by simp [hmem]))]
    simp

theorem getlineLoop_last (delim : Char) (e token : List Char) (h : delim ∉ e)
    (hne : token.reverse ++ e ≠ []) :
    getlineLoop delim e token = [String.mk (token.reverse ++ e)] := by
  induction e generalizing token with
  | nil =>
    cases token with
    | nil => simp at hne
    | cons c t => simp [getlineLoop]
  | cons c e1 ih =>
    have hc : ¬ c = delim := fun heq => h (by simp [heq])
    rw [getlineLoop, if_neg hc, ih (c :: token) (fun hmem => h (by simp [hmem])) (by simp)]
    simp

theorem toCSV_data (b : Booking) :
    b.toCSV.data =
      b.bookingID.data ++ ',' :: (b.passengerUsername.data ++ ',' :: (b.flightNumber.data ++
        ',' :: ((to_string b.seatNumber).data ++ ',' :: (if b.cancelled then "1" else "0").data))) := by
  simp [Booking.toCSV, String.data_append]

theorem getlineTokens_toCSV (b : Booking) (h1 : ',' ∉ b.bookingID.data)
    (h2 : ',' ∉ b.passengerUsername.data) (h3 : ',' ∉ b.flightNumber.data) :
    getlineTokens b.toCSV =
      [b.bookingID, b.passengerUsername, b.flightNumber, to_string b.seatNumber,
        if b.cancelled then "1" else "0"] := by
  unfold getlineTokens
  rw [toCSV_data]
  have h4 : ',' ∉ (to_string b.seatNumber).data :=
    to_string_no_sep b.seatNumber ',' (by decide) (by decide)
  have h5 : getlineLoop ',' (if b.cancelled then "1" else "0").data [] =
      [if b.cancelled then "1" else "0"] := by
    cases b.cancelled <;> rfl
  rw [getlineLoop_token ',' _ _ [] h1, getlineLoop_token ',' _ _ [] h2,
    getlineLoop_token ',' _ _ [] h3, getlineLoop_token ',' _ _ [] h4, h5]
  simp

/-- A line that does not split into five tokens is skipped by the loading loop. -/
theorem loadLoop_skips_wrong_arity (bookings : List Booking) (line : String)
    (rest : List String) (h : (getlineTokens line).length ≠ 5) :
    loadLoop bookings (line :: rest) = loadLoop bookings rest := by
  have hdef : Booking.fromCSV line = .value Booking.default := by
    unfold Booking.fromCSV
    split
    · rename_i heq
      rw [heq] at h
      simp at h
    · rfl
  rw [loadLoop, hdef]
  simp [Booking.default]

/-! ## Lemmas on identifier generation -/

theorem wrapInt32_range (x : Int) :
    -2147483648 ≤ wrapInt32 x ∧ wrapInt32 x ≤ 2147483647 := by
  unfold wrapInt32
  omega

theorem wrapInt32_of_range (x : Int) (h1 : -2147483648 ≤ x) (h2 : x ≤ 2147483647) :
    wrapInt32 x = x := by
  unfold wrapInt32
  omega

theorem wrapInt32_add (x k : Int) : wrapInt32 (wrapInt32 x + k) = wrapInt32 (x + k) := by
  unfold wrapInt32
  omega

theorem generateSeq_length (c : Int) (calls : List (String × String)) :
    (generateSeq c calls).length = calls.length := by
  induction calls generalizing c with
  | nil => rfl
  | cons p rest ih => simp [generateSeq, ih]

/-- The identifier the call at position n of a sequence returns, wrap-around included. -/
theorem generateSeq_getElem? (c : Int) (calls : List (String × String)) (n : Nat)
    (p : String × String) (h : calls[n]? = some p) :
    (generateSeq c calls)[n]? =
      some (p.1 ++ "_" ++ p.2 ++ "_" ++ to_string (wrapInt32 (c + ((n : Int) + 1)))) := by
  induction calls generalizing c n with
  | nil => simp at h
  | cons q rest ih =>
    cases n with
    | zero =>
      simp only [List.getElem?_cons_zero, Option.some.injEq] at h
      subst h
      simp [generateSeq, generateBookingID]
    | succ m =>
      simp only [List.getElem?_cons_succ] at h
      simp only [generateSeq, List.getElem?_cons_succ]
      rw [ih _ m h]
      simp only [generateBookingID]
      rw [wrapInt32_add]
      congr 3
      push_cast
      ring_nf

theorem sep_suffix_unique (x y da db : List Char) (sep : Char) (ha : sep ∉ da)
    (hb : sep ∉ db) (h : x ++ sep :: da = y ++ sep :: db) : da = db := by
  induction x generalizing y with
  | nil =>
    cases y with
    | nil => simpa using h
    | cons d y1 =>
      simp only [List.nil_append, List.cons_append, List.cons.injEq] at h
      exact absurd (by rw [h.2]; simp) ha
  | cons c x1 ih =>
    cases y with
    | nil =>
      simp only [List.nil_append, List.cons_append, List.cons.injEq] at h
      exact absurd (by rw [← h.2]; simp) hb
    | cons d y1 =>
      simp only [List.cons_append, List.cons.injEq] at h
      exact ih y1 h.2

/-- Two identifiers built from counter values that differ are different, whatever the
usernames and flight numbers are. -/
theorem bookingID_counter_injective (u1 f1 u2 f2 : String) (a b : Int)
    (ha : -2147483648 ≤ a ∧ a ≤ 2147483647) (hb : -2147483648 ≤ b ∧ b ≤ 2147483647)
    (h : u1 ++ "_" ++ f1 ++ "_" ++ to_string a = u2 ++ "_" ++ f2 ++ "_" ++ to_string b) :
    a = b := by
  have hd := congrArg String.data h
  simp only [String.data_append] at hd
  have hna := to_string_no_sep a '_' (by decide) (by decide)
  have hnb := to_string_no_sep b '_' (by decide) (by decide)
  have hh : (u1.data ++ '_' :: f1.data) ++ '_' :: (to_string a).data =
      (u2.data ++ '_' :: f2.data) ++ '_' :: (to_string b).data := by
    simpa using hd
  have hdata := sep_suffix_unique _ _ _ _ '_' hna hnb hh
  apply to_string_injective a b ha hb
  exact String.ext hdata

theorem mem_generateSeq (c : Int) (calls : List (String × String)) (x : String)
    (hc : -2147483648 ≤ c) (hlen : c + calls.length ≤ 2147483647)
    (hx : x ∈ generateSeq c calls) :
    ∃ u f k, c < k ∧ k ≤ 2147483647 ∧ x = u ++ "_" ++ f ++ "_" ++ to_string k := by
  induction calls generalizing c with
  | nil => simp [generateSeq] at hx
  | cons p rest ih =>
    simp only [List.length_cons, Nat.cast_add, Nat.cast_one] at hlen
    have hw : wrapInt32 (c + 1) = c + 1 := wrapInt32_of_range _ (by omega) (by omega)
    simp only [generateSeq, generateBookingID, hw, List.mem_cons] at hx
    rcases hx with hx | hx
    · exact ⟨p.1, p.2, c + 1, by omega, by omega, hx⟩
    · obtain ⟨u, f, k, h1, h2, h3⟩ := ih (c + 1) (by omega) (by omega) hx
      exact ⟨u, f, k, by omega, h2, h3⟩

theorem generateSeq_nodup (c : Int) (calls : List (String × String))
    (hc : -2147483648 ≤ c) (hlen : c + calls.length ≤ 2147483647) :
    (generateSeq c calls).Nodup := by
  induction calls generalizing c with
  | nil => exact List.nodup_nil
  | cons p rest ih =>
    simp only [List.length_cons, Nat.cast_add, Nat.cast_one] at hlen
    have hw : wrapInt32 (c + 1) = c + 1 := wrapInt32_of_range _ (by omega) (by omega)
    simp only [generateSeq, generateBookingID, hw]
    rw [List.nodup_cons]
    refine ⟨?_, ih (c + 1) (by omega) (by omega)⟩
    intro hmem
    obtain ⟨u, f, k, h1, h2, h3⟩ := mem_generateSeq (c + 1) rest _ (by omega) (by omega) hmem
    have := bookingID_counter_injective p.1 p.2 u f (c + 1) k ⟨by omega, by omega⟩
      ⟨by omega, h2⟩ h3
    omega

theorem bookTicket_fail (sys : AirlineSystem) (u f : String) (s : Int) (e : Error)
    (h : (bookTicket sys u f s).1 = .fail e) : (bookTicket sys u f s).2 = sys := by
  unfold bookTicket at h ⊢
  cases hfl : findFlight sys.flights f with
  | none => rfl
  | some fl =>
    rw [hfl] at h
    cases hav : isSeatAvailable sys f s with
    | false => simp
    | true => simp [hav] at h

theorem step_counter (sys : AirlineSystem) (op : Op)
    (h : ∀ u f s, op ≠ .book u f s) : (step sys op).counter = sys.counter := by
  cases op with
  | book u f s => exact absurd rfl (h u f s)
  | cancel id u => rfl
  | addFlight nf =>
    simp only [step, addFlight]
    split_ifs <;> rfl
  | removeFlight fn =>
    simp only [step, removeFlight]
    split_ifs
    · rfl
    · cases eraseFlight sys.flights fn <;> rfl
  | register un pw =>
    simp only [step, passengerRegister]
    cases findPassenger sys.passengers un <;> rfl

/-- The identifiers of the successful book calls of a run are those of a sequence of calls
of generateBookingID from the counter value the run starts with. -/
theorem bookedIDs_eq_generateSeq (ops : List Op) (sys : AirlineSystem) :
    ∃ calls, bookedIDs sys ops = generateSeq sys.counter calls := by
  induction ops generalizing sys with
  | nil => exact ⟨[], rfl⟩
  | cons op rest ih =>
    obtain ⟨calls, hcalls⟩ := ih (step sys op)
    cases op with
    | book u f s =>
      simp only [bookedIDs]
      cases hres : (bookTicket sys u f s).1 with
      | ok id =>
        obtain ⟨_, hid, hst⟩ := bookTicket_ok sys u f s id hres
        refine ⟨(u, f) :: calls, ?_⟩
        simp only [generateSeq]
        rw [hcalls, hid]
        simp only [step, hst]
      | fail e =>
        refine ⟨calls, ?_⟩
        simp only
        rw [hcalls]
        simp only [step, bookTicket_fail sys u f s e hres]
    | cancel id u =>
      refine ⟨calls, ?_⟩
      simp only [bookedIDs]
      rw [hcalls, step_counter sys _ (by simp)]
    | addFlight nf =>
      refine ⟨calls, ?_⟩
      simp only [bookedIDs]
      rw [hcalls, step_counter sys _ (by simp)]
    | removeFlight fn =>
      refine ⟨calls, ?_⟩
      simp only [bookedIDs]
      rw [hcalls, step_counter sys _ (by simp)]
    | register un pw =>
      refine ⟨calls, ?_⟩
      simp only [bookedIDs]
      rw [hcalls, step_counter sys _ (by simp)]

/-! ## Lemmas on the seat prompt -/

theorem getInt_accept (value : Int) (rest : List (Option Int)) (minVal maxVal : Int)
    (h1 : minVal ≤ value) (h2 : value ≤ maxVal) :
    getInt (some value :: rest) minVal maxVal = some (value, rest) := by
  have hr : ¬ (value < minVal ∨ value > maxVal) := by omega
  rw [getInt, if_neg hr]

theorem getInt_reject (value : Int) (rest : List (Option Int)) (minVal maxVal : Int)
    (h : value < minVal ∨ maxVal < value) :
    getInt (some value :: rest) minVal maxVal = getInt rest minVal maxVal := by
  have hr : value < minVal ∨ value > maxVal := by omega
  rw [getInt, if_pos hr]

theorem getInt_range (inputs : List (Option Int)) (minVal maxVal value : Int)
    (rest : List (Option Int)) (h : getInt inputs minVal maxVal = some (value, rest)) :
    minVal ≤ value ∧ value ≤ maxVal := by
  induction inputs with
  | nil => simp [getInt] at h
  | cons x xs ih =>
    cases x with
    | none =>
      rw [getInt] at h
      exact ih h
    | some v =>
      rw [getInt] at h
      by_cases hr : v < minVal ∨ v > maxVal
      · rw [if_pos hr] at h
        exact ih h
      · rw [if_neg hr] at h
        simp only [Option.some.injEq, Prod.mk.injEq] at h
        omega

theorem getInt_empty_range (inputs : List (Option Int)) (minVal maxVal : Int)
    (h : maxVal < minVal) : getInt inputs minVal maxVal = none := by
  cases hg : getInt inputs minVal maxVal with
  | none => rfl
  | some r =>
    have := getInt_range inputs minVal maxVal r.1 r.2 hg
    omega

/-- Once the prompt has returned a seat number, the prompted booking is the booking at that
seat number. -/
theorem bookTicketPrompted_eq (sys : AirlineSystem) (u f : String)
    (inputs : List (Option Int)) (fl : Flight) (hfl : findFlight sys.flights f = some fl) :
    bookTicketPrompted sys u f inputs =
      (getInt inputs 1 fl.totalSeats).map (fun r => bookTicket sys u f r.1) := by
  unfold bookTicketPrompted bookTicket
  rw [hfl]
  simp only
  cases hg : getInt inputs 1 fl.totalSeats with
  | none => rfl
  | some r =>
    simp only [Option.map_some']
    split_ifs <;> rfl

/-! ## Claims -/

/-- C1: seat uniqueness is an invariant. From a state in which no two active bookings share
flight number and seat number, the state after any single operation (book, cancel, add
flight, remove flight, register), successful or not, is again such a state, and so is the
state after any sequence of operations; in particular every state reached from an empty
ledger is such a state. -/
theorem seat_uniqueness_invariant (sys : AirlineSystem) (h : SeatUnique sys.bookings) :
    (∀ op, SeatUnique (step sys op).bookings) ∧
    (∀ ops, SeatUnique (run sys ops).bookings) ∧
    (∀ sys0 ops, sys0.bookings = [] → SeatUnique (run sys0 ops).bookings) :=
  ⟨fun op => step_seatUnique sys op h, fun ops => run_seatUnique ops sys h,
    fun sys0 ops h0 => run_seatUnique ops sys0 (by rw [h0]; exact List.Pairwise.nil)⟩

theorem seat_uniqueness_invariant_witness :
    SeatUnique (bookTicket sysAA1 "alice" "AA1" 1).2.bookings ∧
      SeatUnique (step (bookTicket sysAA1 "alice" "AA1" 1).2 (.book "bob" "AA1" 2)).bookings ∧
      (step (bookTicket sysAA1 "alice" "AA1" 1).2 (.book "bob" "AA1" 2)).bookings.length = 2 :=
  ⟨by decide,
    (seat_uniqueness_invariant (bookTicket sysAA1 "alice" "AA1" 1).2 (by decide)).1
      (.book "bob" "AA1" 2),
    by decide⟩

/-- C2: if book(u, f, s) succeeds then isSeatAvailable(f, s) is false in the resulting
state, and it is still false after any sequence of operations in which no operation sets the
cancelled flag of the booking just created (the one at the end of the ledger). -/
theorem booked_seat_stays_unavailable (sys : AirlineSystem) (u f id : String) (s : Int)
    (h : (bookTicket sys u f s).1 = .ok id) :
    isSeatAvailable (bookTicket sys u f s).2 f s = false ∧
    ∀ ops, neverSetsCancelled sys.bookings.length (bookTicket sys u f s).2 ops = true →
      isSeatAvailable (run (bookTicket sys u f s).2 ops) f s = false := by
  obtain ⟨_, _, hst⟩ := bookTicket_ok sys u f s id h
  have hget : (bookTicket sys u f s).2.bookings[sys.bookings.length]? =
      some (Booking.new id u f s) := by
    rw [hst]
    simp
  constructor
  · exact isSeatAvailable_false_of_active _ f s (Booking.new id u f s)
      (List.getElem?_mem hget) rfl rfl rfl
  · intro ops hops
    have hrun := run_keeps_active ops _ _ _ hget rfl hops
    exact isSeatAvailable_false_of_active _ f s (Booking.new id u f s)
      (List.getElem?_mem hrun) rfl rfl rfl

theorem booked_seat_stays_unavailable_witness :
    (bookTicket sysAA1 "alice" "AA1" 1).1 = .ok "alice_AA1_1" ∧
      isSeatAvailable (run (bookTicket sysAA1 "alice" "AA1" 1).2
        [.book "bob" "AA1" 2, .cancel "bob_AA1_2" "bob", .register "carol" "pw3",
          .addFlight { flightAA1 with flightNumber := "BB2" }]) "AA1" 1 = false :=
  ⟨by decide,
    (booked_seat_stays_unavailable sysAA1 "alice" "AA1" "alice_AA1_1" 1 (by decide)).2
      [.book "bob" "AA1" 2, .cancel "bob_AA1_2" "bob", .register "carol" "pw3",
        .addFlight { flightAA1 with flightNumber := "BB2" }] (by decide)⟩

/-- C3 as stated fails at a ledger loaded from an earlier run.  The ledger of sysRestarted
is the one left by a run in which alice booked seat 1 of AA1 and cancelled it.  In the next
run the counter starts from zero, so book("alice", "AA1", 1) succeeds with the identifier
"alice_AA1_1" again; cancel("alice_AA1_1", "alice") then meets the old, cancelled booking
first and reports alreadyCancelled, the new booking stays active, isSeatAvailable("AA1", 1)
stays false and book("bob", "AA1", 1) is refused. -/
theorem cancel_after_book_id_collision :
    (run sysAA1 [.book "alice" "AA1" 1, .cancel "alice_AA1_1" "alice"]).bookings =
        sysRestarted.bookings ∧
      (bookTicket sysRestarted "alice" "AA1" 1).1 = .ok "alice_AA1_1" ∧
      (cancelBooking (bookTicket sysRestarted "alice" "AA1" 1).2 "alice_AA1_1" "alice").1 =
        .fail .alreadyCancelled ∧
      (cancelBooking (bookTicket sysRestarted "alice" "AA1" 1).2 "alice_AA1_1" "alice").2 =
        (bookTicket sysRestarted "alice" "AA1" 1).2 ∧
      isSeatAvailable
        (cancelBooking (bookTicket sysRestarted "alice" "AA1" 1).2 "alice_AA1_1" "alice").2
        "AA1" 1 = false ∧
      (bookTicket
        (cancelBooking (bookTicket sysRestarted "alice" "AA1" 1).2 "alice_AA1_1" "alice").2
        "bob" "AA1" 1).1 = .fail .seatUnavailable := by
  decide

/-- C3, amended: if book(u, f, s) succeeds and returns the identifier id, and no booking
already in the ledger has both the identifier id and the owner u, then cancel(id, u) on the
resulting state succeeds, afterwards isSeatAvailable(f, s) is true again, and a following
book(v, f, s) by any passenger v succeeds. -/
theorem cancel_after_book_fresh (sys : AirlineSystem) (u f id v : String) (s : Int)
    (h : (bookTicket sys u f s).1 = .ok id)
    (hfresh : ∀ b ∈ sys.bookings, ¬ (b.bookingID = id ∧ b.passengerUsername = u)) :
    (cancelBooking (bookTicket sys u f s).2 id u).1 = .ok () ∧
    isSeatAvailable (cancelBooking (bookTicket sys u f s).2 id u).2 f s = true ∧
    ∃ id2, (bookTicket (cancelBooking (bookTicket sys u f s).2 id u).2 v f s).1 = .ok id2 := by
  obtain ⟨hav, _, hst⟩ := bookTicket_ok sys u f s id h
  have hloop := cancelLoop_first sys.bookings [] (Booking.new id u f s) id u hfresh rfl rfl
  have hc : cancelBooking (bookTicket sys u f s).2 id u =
      (.ok (), { sys with
        bookings := sys.bookings ++ [{ Booking.new id u f s with cancelled := true }],
        counter := (generateBookingID sys.counter u f).2 }) := by
    rw [hst]
    unfold cancelBooking
    simp only [hloop]
    rfl
  have hav2 : isSeatAvailable (cancelBooking (bookTicket sys u f s).2 id u).2 f s = true := by
    rw [hc]
    unfold isSeatAvailable at hav ⊢
    simp only at hav ⊢
    cases hfl : findFlight sys.flights f with
    | none => rw [hfl] at hav; cases hav
    | some fl =>
      rw [hfl] at hav
      simp only at hav ⊢
      split_ifs at hav ⊢ with hr
      rw [seatFreeLoop_iff] at hav ⊢
      intro b hb
      rcases List.mem_append.1 hb with hb | hb
      · exact hav b hb
      · rw [List.mem_singleton] at hb
        subst hb
        simp [Booking.new]
  refine ⟨by rw [hc], hav2, ?_⟩
  rw [bookTicket_available _ v f s hav2]
  exact ⟨_, rfl⟩

theorem cancel_after_book_fresh_witness :
    (cancelBooking (bookTicket sysAA1 "alice" "AA1" 1).2 "alice_AA1_1" "alice").1 = .ok () ∧
      isSeatAvailable (cancelBooking (bookTicket sysAA1 "alice" "AA1" 1).2 "alice_AA1_1"
        "alice").2 "AA1" 1 = true ∧
      (∃ id2, (bookTicket (cancelBooking (bookTicket sysAA1 "alice" "AA1" 1).2 "alice_AA1_1"
        "alice").2 "bob" "AA1" 1).1 = .ok id2) ∧
      (bookTicket (run (addFlight AirlineSystem.empty flightAA1).2
        [.book "alice" "AA1" 1, .book "bob" "AA1" 1, .book "bob" "AA1" 2,
          .cancel "alice_AA1_1" "alice"]) "bob" "AA1" 1).1 = .ok "bob_AA1_3" :=
  ⟨(cancel_after_book_fresh sysAA1 "alice" "AA1" "alice_AA1_1" "bob" 1 (by decide)
      (by decide)).1,
    (cancel_after_book_fresh sysAA1 "alice" "AA1" "alice_AA1_1" "bob" 1 (by decide)
      (by decide)).2.1,
    (cancel_after_book_fresh sysAA1 "alice" "AA1" "alice_AA1_1" "bob" 1 (by decide)
      (by decide)).2.2,
    by decide⟩

/-- C4: when cancel(id, u) succeeds, a second cancel(id, u) on the resulting state reports
alreadyCancelled and leaves the state exactly as the first cancel left it; the booking the
first cancel flagged keeps its flag, and the line saved for it ends in the field "1". -/
theorem cancel_twice (sys : AirlineSystem) (id u : String)
    (h : (cancelBooking sys id u).1 = .ok ()) :
    cancelBooking (cancelBooking sys id u).2 id u =
        (.fail .alreadyCancelled, (cancelBooking sys id u).2) ∧
    ∃ pre b post, sys.bookings = pre ++ b :: post ∧ b.cancelled = false ∧
      b.bookingID = id ∧ b.passengerUsername = u ∧
      (∀ x ∈ pre, ¬ (x.bookingID = id ∧ x.passengerUsername = u)) ∧
      (cancelBooking sys id u).2.bookings = pre ++ { b with cancelled := true } :: post ∧
      (cancelBooking (cancelBooking sys id u).2 id u).2.bookings =
        pre ++ { b with cancelled := true } :: post ∧
      (saveBookings (cancelBooking (cancelBooking sys id u).2 id u).2.bookings)[pre.length]? =
        some (id ++ "," ++ u ++ "," ++ b.flightNumber ++ "," ++ to_string b.seatNumber
          ++ "," ++ "1") := by
  have hcases := cancelLoop_cases sys.bookings id u
  have h1 : (cancelLoop sys.bookings id u).1 = .ok () := h
  rcases hcases with ⟨h2, _⟩ | ⟨h2, _⟩ | ⟨_, pre, b, post, hbs, hid, hu, hc, hpre, hres⟩
  · rw [h1] at h2; cases h2
  · rw [h1] at h2; cases h2
  · have hloop := cancelLoop_first pre post { b with cancelled := true } id u hpre hid hu
    simp only [if_true] at hloop
    have hsecond : cancelBooking (cancelBooking sys id u).2 id u =
        (.fail .alreadyCancelled, (cancelBooking sys id u).2) := by
      unfold cancelBooking
      simp only [hres, hloop]
    refine ⟨hsecond, pre, b, post, hbs, hc, hid, hu, hpre, hres, ?_, ?_⟩
    · rw [hsecond]
      exact hres
    · rw [hsecond]
      have hb : (cancelBooking sys id u).2.bookings =
          pre ++ { b with cancelled := true } :: post := hres
      rw [hb]
      have hline := getElem?_append_cons_length (pre.map Booking.toCSV)
        (post.map Booking.toCSV) (Booking.toCSV { b with cancelled := true })
      rw [List.length_map] at hline
      simp only [saveBookings, List.map_append, List.map_cons]
      rw [hline]
      simp [Booking.toCSV, hid, hu]

theorem cancel_twice_witness :
    (cancelBooking (bookTicket sysAA1 "alice" "AA1" 1).2 "alice_AA1_1" "alice").1 = .ok () ∧
      (cancelBooking (cancelBooking (bookTicket sysAA1 "alice" "AA1" 1).2 "alice_AA1_1"
        "alice").2 "alice_AA1_1" "alice").1 = .fail .alreadyCancelled ∧
      saveBookings (cancelBooking (cancelBooking (bookTicket sysAA1 "alice" "AA1" 1).2
        "alice_AA1_1" "alice").2 "alice_AA1_1" "alice").2.bookings =
        ["alice_AA1_1,alice,AA1,1,1"] :=
  ⟨by decide,
    congrArg Prod.fst (cancel_twice (bookTicket sysAA1 "alice" "AA1" 1).2 "alice_AA1_1"
      "alice" (by decide)).1,
    by decide⟩

/-- C5 as stated fails for a seat number outside the range of the flight.  Seat 3 of the
two-seat flight AA1: the flight exists and isSeatAvailable("AA1", 3) is false, yet book
does not fail with seatUnavailable; the prompt refuses the 3 and reads on, so with nothing
more typed there is no outcome, and with a 1 typed next seat 1 is booked.  On a loaded
flight with a seat count of zero the prompt refuses every value and book has no outcome. -/
theorem book_out_of_range_asks_again :
    (∃ fl ∈ sysAA1.flights, fl.flightNumber = "AA1") ∧
      isSeatAvailable sysAA1 "AA1" 3 = false ∧
      bookTicketPrompted sysAA1 "alice" "AA1" [some 3] ≠ some (.fail .seatUnavailable, sysAA1) ∧
      bookTicketPrompted sysAA1 "alice" "AA1" [some 3] = none ∧
      (bookTicketPrompted sysAA1 "alice" "AA1" [some 3, some 1]).map (fun r => r.1) =
        some (.ok "alice_AA1_1") ∧
      bookTicketPrompted sysNoSeats "alice" "ZZ0" [some 0, some 1, some 2, none] = none := by
  decide

/-- C5, amended: book(u, f, s) has exactly three outcomes when s is a seat number the seat
prompt accepts, between 1 and the seat count of the flight found.  When no flight numbered
f is in the catalog it fails with flightNotFound, whatever is typed; when the flight exists
and isSeatAvailable(f, s) is false it fails with seatUnavailable; in both cases the whole
state is unchanged.  Otherwise it succeeds: the ledger is the old one with one booking
appended at the end, carrying the returned identifier, owner u, flight f, seat s and
cancelled = false, and the flights and passengers are unchanged.  A line that is not an
int, or a seat number out of range, is no outcome: the prompt reads the next line, and for
a flight whose seat count is below 1 it never returns.  Whatever is typed, an outcome of
book is one of the three. -/
theorem book_three_outcomes (sys : AirlineSystem) (u f : String) (s : Int)
    (rest : List (Option Int)) :
    ((∀ fl ∈ sys.flights, fl.flightNumber ≠ f) →
      bookTicketPrompted sys u f (some s :: rest) = some (.fail .flightNotFound, sys)) ∧
    (∀ fl, findFlight sys.flights f = some fl → 1 ≤ s → s ≤ fl.totalSeats →
      (isSeatAvailable sys f s = false →
        bookTicketPrompted sys u f (some s :: rest) = some (.fail .seatUnavailable, sys)) ∧
      (isSeatAvailable sys f s = true →
        ∃ id st, bookTicketPrompted sys u f (some s :: rest) = some (.ok id, st) ∧
          st.bookings =
            sys.bookings ++ [{ bookingID := id, passengerUsername := u, flightNumber := f,
                               seatNumber := s, cancelled := false }] ∧
          st.flights = sys.flights ∧ st.passengers = sys.passengers)) ∧
    (∀ fl, findFlight sys.flights f = some fl →
      ((s < 1 ∨ fl.totalSeats < s) →
        bookTicketPrompted sys u f (some s :: rest) = bookTicketPrompted sys u f rest) ∧
      bookTicketPrompted sys u f (none :: rest) = bookTicketPrompted sys u f rest ∧
      bookTicketPrompted sys u f [] = none ∧
      (fl.totalSeats < 1 → ∀ inputs, bookTicketPrompted sys u f inputs = none)) ∧
    (∀ inputs r, bookTicketPrompted sys u f inputs = some r →
      r = (.fail .flightNotFound, sys) ∨ r = (.fail .seatUnavailable, sys) ∨
      ∃ id seat, r.1 = .ok id ∧
        r.2.bookings =
          sys.bookings ++ [{ bookingID := id, passengerUsername := u, flightNumber := f,
                             seatNumber := seat, cancelled := false }] ∧
        r.2.flights = sys.flights ∧ r.2.passengers = sys.passengers) := by
  refine ⟨?_, ?_, ?_, ?_⟩
  · intro hnone
    have hfind := (findFlight_none_iff sys.flights f).2 hnone
    unfold bookTicketPrompted
    rw [hfind]
  · intro fl hfl h1 h2
    rw [bookTicketPrompted_eq sys u f _ fl hfl, getInt_accept s rest 1 fl.totalSeats h1 h2]
    simp only [Option.map_some']
    constructor
    · intro hav
      unfold bookTicket
      rw [hfl]
      simp [hav]
    · intro hav
      rw [bookTicket_available sys u f s hav]
      exact ⟨_, _, rfl, rfl, rfl, rfl⟩
  · intro fl hfl
    refine ⟨?_, ?_, ?_, ?_⟩
    · intro hout
      rw [bookTicketPrompted_eq sys u f _ fl hfl, bookTicketPrompted_eq sys u f _ fl hfl,
        getInt_reject s rest 1 fl.totalSeats hout]
    · rw [bookTicketPrompted_eq sys u f _ fl hfl, bookTicketPrompted_eq sys u f _ fl hfl,
        getInt]
    · rw [bookTicketPrompted_eq sys u f _ fl hfl, getInt]
      rfl
    · intro hzero inputs
      rw [bookTicketPrompted_eq sys u f _ fl hfl,
        getInt_empty_range inputs 1 fl.totalSeats hzero]
      rfl
  · intro inputs r hr
    cases hfl : findFlight sys.flights f with
    | none =>
      left
      unfold bookTicketPrompted at hr
      rw [hfl] at hr
      simp only [Option.some.injEq] at hr
      exact hr.symm
    | some fl =>
      rw [bookTicketPrompted_eq sys u f _ fl hfl] at hr
      cases hg : getInt inputs 1 fl.totalSeats with
      | none =>
        rw [hg] at hr
        cases hr
      | some v =>
        rw [hg] at hr
        simp only [Option.map_some', Option.some.injEq] at hr
        right
        cases hav : isSeatAvailable sys f v.1 with
        | false =>
          left
          rw [← hr]
          unfold bookTicket
          rw [hfl]
          simp [hav]
        | true =>
          right
          rw [← hr, bookTicket_available sys u f v.1 hav]
          exact ⟨_, v.1, rfl, rfl, rfl, rfl⟩

theorem book_three_outcomes_witness :
    bookTicketPrompted sysAA1 "alice" "ZZ9" [some 1] = some (.fail .flightNotFound, sysAA1) ∧
      bookTicketPrompted (bookTicket sysAA1 "alice" "AA1" 1).2 "bob" "AA1" [some 1] =
        some (.fail .seatUnavailable, (bookTicket sysAA1 "alice" "AA1" 1).2) ∧
      (∃ id st, bookTicketPrompted (bookTicket sysAA1 "alice" "AA1" 1).2 "bob" "AA1"
          [some 2] = some (.ok id, st) ∧
        st.bookings =
          (bookTicket sysAA1 "alice" "AA1" 1).2.bookings ++
            [{ bookingID := id, passengerUsername := "bob", flightNumber := "AA1",
               seatNumber := 2, cancelled := false }] ∧
        st.flights = (bookTicket sysAA1 "alice" "AA1" 1).2.flights ∧
        st.passengers = (bookTicket sysAA1 "alice" "AA1" 1).2.passengers) ∧
      bookTicketPrompted (bookTicket sysAA1 "alice" "AA1" 1).2 "bob" "AA1" [some 2] =
        some (bookTicket (bookTicket sysAA1 "alice" "AA1" 1).2 "bob" "AA1" 2) :=
  ⟨(book_three_outcomes sysAA1 "alice" "ZZ9" 1 []).1 (by decide),
    ((book_three_outcomes (bookTicket sysAA1 "alice" "AA1" 1).2 "bob" "AA1" 1 []).2.1
      flightAA1 (by decide) (by decide) (by decide)).1 (by decide),
    ((book_three_outcomes (bookTicket sysAA1 "alice" "AA1" 1).2 "bob" "AA1" 2 []).2.1
      flightAA1 (by decide) (by decide) (by decide)).2 (by decide),
    by decide⟩

/-- C6: isSeatAvailable(f, s) is true exactly when a flight numbered f is in the catalog,
s lies between 1 and the seat count of that flight (the first one with the number, the one
findFlight returns), and no booking of the ledger is active with flight number f and seat
number s.  So it is false for an unknown flight and for a seat out of range, and dropping
the cancelled bookings from the ledger never changes its answer. -/
theorem isSeatAvailable_iff (sys : AirlineSystem) (f : String) (s : Int) :
    (isSeatAvailable sys f s = true ↔
      ∃ pre fl post, sys.flights = pre ++ fl :: post ∧ fl.flightNumber = f ∧
        (∀ g ∈ pre, g.flightNumber ≠ f) ∧ 1 ≤ s ∧ s ≤ fl.totalSeats ∧
        ∀ b ∈ sys.bookings, ¬ (b.cancelled = false ∧ b.flightNumber = f ∧ b.seatNumber = s)) ∧
    ((∀ fl ∈ sys.flights, fl.flightNumber ≠ f) → isSeatAvailable sys f s = false) ∧
    (s < 1 → isSeatAvailable sys f s = false) ∧
    (∀ fl, findFlight sys.flights f = some fl → fl.totalSeats < s →
      isSeatAvailable sys f s = false) ∧
    isSeatAvailable { sys with bookings := sys.bookings.filter (fun b => !b.cancelled) } f s =
      isSeatAvailable sys f s := by
  have hmain : isSeatAvailable sys f s = true ↔
      ∃ fl, findFlight sys.flights f = some fl ∧ 1 ≤ s ∧ s ≤ fl.totalSeats ∧
        ∀ b ∈ sys.bookings,
          ¬ (b.cancelled = false ∧ b.flightNumber = f ∧ b.seatNumber = s) := by
    unfold isSeatAvailable
    cases hfl : findFlight sys.flights f with
    | none => simp
    | some fl =>
      simp only [Option.some.injEq, exists_eq_left']
      by_cases hr : s < 1 ∨ s > fl.totalSeats
      · have hcond : (decide (s < 1) || decide (s > fl.totalSeats)) = true := by
          simpa using hr
        rw [if_pos hcond]
        constructor
        · intro h; cases h
        · rintro ⟨h1, h2, _⟩
          rcases hr with hr | hr <;> omega
      · have hcond : ¬ (decide (s < 1) || decide (s > fl.totalSeats)) = true := by
          simpa using hr
        rw [if_neg hcond, seatFreeLoop_iff]
        push_neg at hr
        exact ⟨fun h => ⟨hr.1, hr.2, h⟩, fun h => h.2.2⟩
  refine ⟨?_, ?_, ?_, ?_, ?_⟩
  · rw [hmain]
    constructor
    · rintro ⟨fl, hfl, h1, h2, h3⟩
      obtain ⟨pre, post, hsplit, hnum, hpre⟩ := (findFlight_some_iff sys.flights f fl).1 hfl
      exact ⟨pre, fl, post, hsplit, hnum, hpre, h1, h2, h3⟩
    · rintro ⟨pre, fl, post, hsplit, hnum, hpre, h1, h2, h3⟩
      exact ⟨fl, (findFlight_some_iff sys.flights f fl).2 ⟨pre, post, hsplit, hnum, hpre⟩,
        h1, h2, h3⟩
  · intro hnone
    rw [← Bool.not_eq_true, hmain]
    rintro ⟨fl, hfl, _⟩
    rw [(findFlight_none_iff sys.flights f).2 hnone] at hfl
    cases hfl
  · intro hs
    rw [← Bool.not_eq_true, hmain]
    rintro ⟨fl, _, h1, _⟩
    omega
  · intro fl hfl hs
    rw [← Bool.not_eq_true, hmain]
    rintro ⟨fl2, hfl2, _, h2, _⟩
    rw [hfl] at hfl2
    cases hfl2
    omega
  · unfold isSeatAvailable
    simp only
    cases findFlight sys.flights f with
    | none => rfl
    | some fl =>
      simp only
      split_ifs
      · rfl
      · rw [Bool.eq_iff_iff, seatFreeLoop_iff, seatFreeLoop_iff]
        constructor
        · intro h b hb hc
          exact h b (List.mem_filter.2 ⟨hb, by simp [hc.1]⟩) hc
        · intro h b hb
          exact h b (List.mem_filter.1 hb).1

theorem isSeatAvailable_iff_witness :
    isSeatAvailable sysRestarted "AA1" 1 = true ∧ isSeatAvailable sysRestarted "AA1" 0 = false ∧
      isSeatAvailable sysRestarted "ZZ9" 1 = false :=
  ⟨(isSeatAvailable_iff sysRestarted "AA1" 1).1.2
      ⟨[], flightAA1, [], by decide, by decide, by decide, by decide, by decide, by decide⟩,
    (isSeatAvailable_iff sysRestarted "AA1" 0).2.2.1 (by decide),
    (isSeatAvailable_iff sysRestarted "ZZ9" 1).2.1 (by decide)⟩

/-- C7: add(F) fails with duplicateKey exactly when some flight of the catalog has the
flight number of F, and then leaves the whole state unchanged; otherwise it succeeds and
the flight list is the old one with F appended at the end.  So after add(F), whatever its
outcome, add(G) for any G with the flight number of F fails with duplicateKey and changes
nothing. -/
theorem addFlight_rejects_duplicates (sys : AirlineSystem) (nf : Flight) :
    ((addFlight sys nf).1 = .fail .duplicateKey ↔
      ∃ fl ∈ sys.flights, fl.flightNumber = nf.flightNumber) ∧
    ((∃ fl ∈ sys.flights, fl.flightNumber = nf.flightNumber) →
      addFlight sys nf = (.fail .duplicateKey, sys)) ∧
    ((¬ ∃ fl ∈ sys.flights, fl.flightNumber = nf.flightNumber) →
      addFlight sys nf = (.ok (), { sys with flights := sys.flights ++ [nf] })) ∧
    (∀ g : Flight, g.flightNumber = nf.flightNumber →
      addFlight (addFlight sys nf).2 g = (.fail .duplicateKey, (addFlight sys nf).2)) := by
  have hdup : ∀ (t : AirlineSystem) (g : Flight),
      (∃ fl ∈ t.flights, fl.flightNumber = g.flightNumber) →
        addFlight t g = (.fail .duplicateKey, t) := by
    intro t g hex
    unfold addFlight
    rw [if_pos ((flightNumberExists_iff t.flights g.flightNumber).2 hex)]
  have hnew : (¬ ∃ fl ∈ sys.flights, fl.flightNumber = nf.flightNumber) →
      addFlight sys nf = (.ok (), { sys with flights := sys.flights ++ [nf] }) := by
    intro hno
    unfold addFlight
    rw [if_neg (fun hc => hno ((flightNumberExists_iff sys.flights nf.flightNumber).1 hc))]
  refine ⟨?_, hdup sys nf, hnew, ?_⟩
  · constructor
    · intro hfail
      by_contra hno
      rw [hnew hno] at hfail
      cases hfail
    · intro hex
      rw [hdup sys nf hex]
  · intro g hg
    apply hdup
    by_cases hex : ∃ fl ∈ sys.flights, fl.flightNumber = nf.flightNumber
    · rw [hdup sys nf hex]
      obtain ⟨fl, hfl, hnum⟩ := hex
      exact ⟨fl, hfl, by rw [hnum, hg]⟩
    · rw [hnew hex]
      exact ⟨nf, by simp, hg.symm⟩

theorem addFlight_rejects_duplicates_witness :
    addFlight sysAA1 { flightAA1 with origin := "BOS", totalSeats := 9 } =
        (.fail .duplicateKey, sysAA1) ∧
      addFlight (addFlight AirlineSystem.empty flightAA1).2
          { flightAA1 with origin := "BOS", totalSeats := 9 } =
        (.fail .duplicateKey, (addFlight AirlineSystem.empty flightAA1).2) ∧
      (addFlight AirlineSystem.empty flightAA1).2.flights = [flightAA1] :=
  ⟨(addFlight_rejects_duplicates sysAA1 { flightAA1 with origin := "BOS", totalSeats := 9 }).2.1
      ⟨flightAA1, by decide, by decide⟩,
    (addFlight_rejects_duplicates AirlineSystem.empty flightAA1).2.2.2
      { flightAA1 with origin := "BOS", totalSeats := 9 } (by decide),
    by decide⟩

/-- C8 as stated fails where the catalog holds two flights with the number removed (the
flight file is loaded without a duplicate check): remove("AA1") succeeds and a flight
numbered AA1 is still in the resulting catalog. -/
theorem removeFlight_leaves_second_flight :
    (∃ fl ∈ sysTwoAA1.flights, fl.flightNumber = "AA1") ∧
      (removeFlight sysTwoAA1 "AA1").1 = .ok () ∧
      ¬ (∀ fl ∈ (removeFlight sysTwoAA1 "AA1").2.flights, fl.flightNumber ≠ "AA1") := by
  decide

/-- C8, amended: flight removal does not cascade.  For a flight number fn present in the
catalog, remove(fn) succeeds whatever bookings reference fn; it deletes the first flight
numbered fn and keeps the other flights in order, so the resulting catalog holds no flight
numbered fn when the catalog held only one; the booking list is the same before and after,
hence so is the booking history of every passenger.  When fn is absent remove fails with
notFound and changes nothing. -/
theorem removeFlight_no_cascade (sys : AirlineSystem) (fn : String) :
    ((∃ fl ∈ sys.flights, fl.flightNumber = fn) →
      (removeFlight sys fn).1 = .ok () ∧
      (∃ pre fl post, sys.flights = pre ++ fl :: post ∧ fl.flightNumber = fn ∧
        (∀ g ∈ pre, g.flightNumber ≠ fn) ∧ (removeFlight sys fn).2.flights = pre ++ post) ∧
      ((sys.flights.map (fun fl => fl.flightNumber)).count fn ≤ 1 →
        ∀ fl ∈ (removeFlight sys fn).2.flights, fl.flightNumber ≠ fn) ∧
      (removeFlight sys fn).2.bookings = sys.bookings ∧
      (∀ u, viewBookingHistory (removeFlight sys fn).2 u = viewBookingHistory sys u)) ∧
    ((∀ fl ∈ sys.flights, fl.flightNumber ≠ fn) →
      removeFlight sys fn = (.fail .notFound, sys)) := by
  constructor
  · rintro ⟨fl0, hfl0, hnum0⟩
    have hne : sys.flights.isEmpty = false := by
      cases hfs : sys.flights with
      | nil => rw [hfs] at hfl0; cases hfl0
      | cons a l => rfl
    cases he : eraseFlight sys.flights fn with
    | none =>
      exact absurd hnum0 ((eraseFlight_none_iff sys.flights fn).1 he fl0 hfl0)
    | some r =>
      have hrem : removeFlight sys fn = (.ok (), { sys with flights := r }) := by
        unfold removeFlight
        simp [hne, he]
      obtain ⟨pre, fl, post, h1, h2, h3, h4⟩ := eraseFlight_some sys.flights fn r he
      rw [hrem]
      refine ⟨rfl, ⟨pre, fl, post, h1, h2, h3, h4⟩, ?_, rfl, fun u => rfl⟩
      intro hcount g hg
      simp only at hg
      rw [h1] at hcount
      simp only [List.map_append, List.map_cons, List.count_append, List.count_cons,
        h2, beq_self_eq_true, if_true] at hcount
      have hpost : List.count fn (post.map (fun fl => fl.flightNumber)) = 0 := by omega
      rw [List.count_eq_zero] at hpost
      rw [h4] at hg
      rcases List.mem_append.1 hg with hg | hg
      · exact h3 g hg
      · intro hgn
        exact hpost (List.mem_map.2 ⟨g, hg, hgn⟩)
  · intro hnone
    unfold removeFlight
    split_ifs
    · rfl
    · rw [(eraseFlight_none_iff sys.flights fn).2 hnone]

theorem removeFlight_no_cascade_witness :
    (removeFlight (bookTicket sysAA1 "alice" "AA1" 1).2 "AA1").1 = .ok () ∧
      (∀ fl ∈ (removeFlight (bookTicket sysAA1 "alice" "AA1" 1).2 "AA1").2.flights,
        fl.flightNumber ≠ "AA1") ∧
      viewBookingHistory (removeFlight (bookTicket sysAA1 "alice" "AA1" 1).2 "AA1").2 "alice" =
        [⟨"alice_AA1_1", "alice", "AA1", 1, false⟩] ∧
      removeFlight sysAA1 "ZZ9" = (.fail .notFound, sysAA1) :=
  ⟨((removeFlight_no_cascade (bookTicket sysAA1 "alice" "AA1" 1).2 "AA1").1
      ⟨flightAA1, by decide, by decide⟩).1,
    ((removeFlight_no_cascade (bookTicket sysAA1 "alice" "AA1" 1).2 "AA1").1
      ⟨flightAA1, by decide, by decide⟩).2.2.1 (by decide),
    by decide,
    (removeFlight_no_cascade sysAA1 "ZZ9").2 (by decide)⟩

/-- C9: cancel(id, u) is owner-scoped and changes at most one flag.  The ledger keeps its
length and order; a booking whose owner is not u or whose identifier is not id stays as it
is, and any other booking stays as it is or has its flag turned from false to true; the
ledger as a whole is unchanged or differs in exactly one booking with identifier id and
owner u, whose flag went from false to true; flights, passengers and counter are
untouched.  When no booking has both identifier id and owner u, it fails with notFound and
the state is unchanged. -/
theorem cancel_owner_scoped (sys : AirlineSystem) (id u : String) :
    (cancelBooking sys id u).2.bookings.length = sys.bookings.length ∧
    (∀ (i : Nat) (b : Booking), sys.bookings[i]? = some b →
      (cancelBooking sys id u).2.bookings[i]? = some b ∨
        (b.cancelled = false ∧ b.bookingID = id ∧ b.passengerUsername = u ∧
          (cancelBooking sys id u).2.bookings[i]? = some { b with cancelled := true })) ∧
    (∀ (i : Nat) (b : Booking), sys.bookings[i]? = some b → (b.passengerUsername ≠ u ∨ b.bookingID ≠ id) →
      (cancelBooking sys id u).2.bookings[i]? = some b) ∧
    ((cancelBooking sys id u).2.bookings = sys.bookings ∨
      ∃ pre b post, sys.bookings = pre ++ b :: post ∧ b.bookingID = id ∧
        b.passengerUsername = u ∧ b.cancelled = false ∧
        (cancelBooking sys id u).2.bookings = pre ++ { b with cancelled := true } :: post) ∧
    ((cancelBooking sys id u).2.flights = sys.flights ∧
      (cancelBooking sys id u).2.passengers = sys.passengers ∧
      (cancelBooking sys id u).2.counter = sys.counter) ∧
    ((∀ b ∈ sys.bookings, ¬ (b.bookingID = id ∧ b.passengerUsername = u)) →
      cancelBooking sys id u = (.fail .notFound, sys)) := by
  refine ⟨cancelLoop_length sys.bookings id u,
    fun i b hb => cancelLoop_getElem? sys.bookings id u i b hb, ?_, ?_, ⟨rfl, rfl, rfl⟩, ?_⟩
  · intro i b hb hne
    rcases cancelLoop_getElem? sys.bookings id u i b hb with h1 | ⟨_, h2, h3, _⟩
    · exact h1
    · rcases hne with hne | hne
      · exact absurd h3 hne
      · exact absurd h2 hne
  · rcases cancelLoop_cases sys.bookings id u with ⟨_, h2, _⟩ | ⟨_, h2, _⟩ |
      ⟨_, pre, b, post, h3, h4, h5, h6, _, h8⟩
    · left; exact h2
    · left; exact h2
    · right; exact ⟨pre, b, post, h3, h4, h5, h6, h8⟩
  · intro hnone
    rcases cancelLoop_cases sys.bookings id u with ⟨h1, h2, _⟩ |
      ⟨_, _, pre, b, post, h3, h4, h5, _⟩ | ⟨_, pre, b, post, h3, h4, h5, _⟩
    · unfold cancelBooking
      simp only [h1, h2]
    · exact absurd ⟨h4, h5⟩ (hnone b (by rw [h3]; simp))
    · exact absurd ⟨h4, h5⟩ (hnone b (by rw [h3]; simp))

theorem cancel_owner_scoped_witness :
    cancelBooking (bookTicket sysAA1 "alice" "AA1" 1).2 "alice_AA1_1" "bob" =
        (.fail .notFound, (bookTicket sysAA1 "alice" "AA1" 1).2) ∧
      (cancelBooking (bookTicket sysAA1 "alice" "AA1" 1).2 "alice_AA1_1" "alice").2.bookings =
        [⟨"alice_AA1_1", "alice", "AA1", 1, true⟩] :=
  ⟨(cancel_owner_scoped (bookTicket sysAA1 "alice" "AA1" 1).2 "alice_AA1_1" "bob").2.2.2.2.2
      (by decide),
    by decide⟩

/-- C10: in the directory reached from an empty one by any sequence of register calls, the
usernames are pairwise distinct, and authenticate(u, p) succeeds exactly when the first
register call made for u had the password p (it then returns that account); every other
authenticate returns invalidCredentials.  A further register for a username already
registered fails with duplicateKey and leaves the state unchanged. -/
theorem directory_register_authenticate (sys0 : AirlineSystem) (calls : List (String × String))
    (h : sys0.passengers = []) :
    ((registerAll sys0 calls).passengers.map (fun a => a.username)).Nodup ∧
    (∀ u p, (∃ acct, passengerLogin (registerAll sys0 calls) u p = .ok acct) ↔
      firstPassword calls u = some p) ∧
    (∀ u p, firstPassword calls u = some p →
      passengerLogin (registerAll sys0 calls) u p = .ok ⟨u, p⟩) ∧
    (∀ u p, firstPassword calls u ≠ some p →
      passengerLogin (registerAll sys0 calls) u p = .fail .invalidCredentials) ∧
    (∀ u q, (∃ c ∈ calls, c.1 = u) →
      passengerRegister (registerAll sys0 calls) u q =
        (.fail .duplicateKey, registerAll sys0 calls)) := by
  have hfind : ∀ u, findPassenger (registerAll sys0 calls).passengers u =
      (firstPassword calls u).map (fun p => ⟨u, p⟩) := by
    intro u
    rw [findPassenger_registerAll, h]
    rfl
  have hyes : ∀ u p, firstPassword calls u = some p →
      passengerLogin (registerAll sys0 calls) u p = .ok ⟨u, p⟩ := by
    intro u p hp
    unfold passengerLogin
    rw [hfind, hp]
    simp [Passenger.login]
  have hno : ∀ u p, firstPassword calls u ≠ some p →
      passengerLogin (registerAll sys0 calls) u p = .fail .invalidCredentials := by
    intro u p hp
    unfold passengerLogin
    rw [hfind]
    cases hq : firstPassword calls u with
    | none => rfl
    | some q =>
      have hne : ¬ p = q := by
        intro heq
        rw [hq, heq] at hp
        exact hp rfl
      simp [Passenger.login, hne]
  refine ⟨registerAll_nodup calls sys0 (by rw [h]; exact List.nodup_nil), ?_, hyes, hno, ?_⟩
  · intro u p
    constructor
    · rintro ⟨acct, hacct⟩
      by_contra hne
      rw [hno u p hne] at hacct
      cases hacct
    · intro hp
      exact ⟨_, hyes u p hp⟩
  · intro u q hex
    obtain ⟨p, hp⟩ := (firstPassword_isSome_iff calls u).2 hex
    unfold passengerRegister
    rw [hfind, hp]
    rfl

theorem directory_register_authenticate_witness :
    passengerRegister (registerAll AirlineSystem.empty [("alice", "pw1")]) "alice" "pw2" =
        (.fail .duplicateKey, registerAll AirlineSystem.empty [("alice", "pw1")]) ∧
      passengerLogin (registerAll AirlineSystem.empty [("alice", "pw1"), ("alice", "pw2")])
        "alice" "pw1" = .ok ⟨"alice", "pw1"⟩ ∧
      passengerLogin (registerAll AirlineSystem.empty [("alice", "pw1"), ("alice", "pw2")])
        "alice" "wrong" = .fail .invalidCredentials ∧
      passengerLogin (registerAll AirlineSystem.empty [("alice", "pw1"), ("alice", "pw2")])
        "alice" "pw2" = .fail .invalidCredentials ∧
      passengerLogin (registerAll AirlineSystem.empty [("alice", "pw1"), ("alice", "pw2")])
        "bob" "pw1" = .fail .invalidCredentials :=
  ⟨(directory_register_authenticate AirlineSystem.empty [("alice", "pw1")] rfl).2.2.2.2
      "alice" "pw2" ⟨("alice", "pw1"), by decide, rfl⟩,
    (directory_register_authenticate AirlineSystem.empty [("alice", "pw1"), ("alice", "pw2")]
      rfl).2.2.1 "alice" "pw1" (by decide),
    (directory_register_authenticate AirlineSystem.empty [("alice", "pw1"), ("alice", "pw2")]
      rfl).2.2.2.1 "alice" "wrong" (by decide),
    (directory_register_authenticate AirlineSystem.empty [("alice", "pw1"), ("alice", "pw2")]
      rfl).2.2.2.1 "alice" "pw2" (by decide),
    (directory_register_authenticate AirlineSystem.empty [("alice", "pw1"), ("alice", "pw2")]
      rfl).2.2.2.1 "bob" "pw1" (by decide)⟩

/-- C11: booking codec round trip.  For every booking whose identifier, passenger username
and flight number contain no comma (they may be empty, and may hold any other character),
whose seat number is an int and whose cancelled flag has either value, fromCSV applied to
toCSV returns, without raising, a booking equal to the original in all five fields. -/
theorem booking_csv_round_trip (b : Booking) (h1 : ',' ∉ b.bookingID.data)
    (h2 : ',' ∉ b.passengerUsername.data) (h3 : ',' ∉ b.flightNumber.data)
    (hlo : -2147483648 ≤ b.seatNumber) (hhi : b.seatNumber ≤ 2147483647) :
    Booking.fromCSV b.toCSV = .value b := by
  unfold Booking.fromCSV
  rw [getlineTokens_toCSV b h1 h2 h3]
  simp only [stoi_to_string b.seatNumber hlo hhi]
  cases b with
  | mk id user flight seat cancelled =>
    cases cancelled <;> simp

theorem booking_csv_round_trip_witness :
    Booking.fromCSV (Booking.toCSV ⟨"", "", "", -2147483648, true⟩) =
        .value ⟨"", "", "", -2147483648, true⟩ ∧
      Booking.fromCSV (Booking.toCSV ⟨"alice_AA1_1", "alice", "AA1", 2147483647, false⟩) =
        .value ⟨"alice_AA1_1", "alice", "AA1", 2147483647, false⟩ ∧
      Booking.toCSV ⟨"alice_AA1_1", "alice", "AA1", 2147483647, false⟩ =
        "alice_AA1_1,alice,AA1,2147483647,0" :=
  ⟨booking_csv_round_trip ⟨"", "", "", -2147483648, true⟩ (by decide) (by decide) (by decide)
      (by decide) (by decide),
    booking_csv_round_trip ⟨"alice_AA1_1", "alice", "AA1", 2147483647, false⟩ (by decide)
      (by decide) (by decide) (by decide) (by decide),
    by decide⟩

/-- C12 fails on the code at a booking file that holds a five-field line whose seat field
is not an int.  On the line "b2,bob,AA1,x,0" stoi raises invalid_argument, on a seat field
too large for an int it raises out_of_range; nothing catches the exception, so the load
stops there and the line "b3,carol,AA1,2,0" after it is never decoded.  A line with a wrong
number of fields is skipped and the lines around it are loaded in file order. -/
theorem loadBookings_raises_on_bad_seat :
    loadBookings [] (some ["b1,alice,AA1,1,0", "b2,bob,AA1,x,0", "b3,carol,AA1,2,0"]) =
        .raised .invalid_argument ∧
      loadBookings [] (some ["b1,alice,AA1,1,0", "b2,bob,AA1,99999999999,0"]) =
        .raised .out_of_range ∧
      loadBookings [] (some ["b1,alice,AA1,1,0", "b2,bob,AA1", "b3,carol,AA1,2,1"]) =
        .value [⟨"b1", "alice", "AA1", 1, false⟩, ⟨"b3", "carol", "AA1", 2, true⟩] := by
  decide

/-- C13 as stated fails once the int counter overflows.  From the initial counter 0, the
call number 2147483648 returns an identifier with the counter -2147483648, below the
2147483647 of the call before it, and the call number 4294967297 returns the identifier
"alice_AA1_1" that the first call returned. -/
theorem bookingID_repeats_after_overflow :
    (generateSeq 0 (List.replicate 2147483648 ("alice", "AA1")))[2147483646]? =
        some "alice_AA1_2147483647" ∧
      (generateSeq 0 (List.replicate 2147483648 ("alice", "AA1")))[2147483647]? =
        some "alice_AA1_-2147483648" ∧
      (generateSeq 0 (List.replicate 4294967297 ("alice", "AA1")))[0]? =
        some "alice_AA1_1" ∧
      (generateSeq 0 (List.replicate 4294967297 ("alice", "AA1")))[4294967296]? =
        some "alice_AA1_1" ∧
      ¬ (generateSeq 0 (List.replicate 4294967297 ("alice", "AA1"))).Nodup := by
  have h1 := generateSeq_getElem? 0 (List.replicate 2147483648 ("alice", "AA1")) 2147483646
    ("alice", "AA1") (by rw [List.getElem?_replicate]; rfl)
  have h2 := generateSeq_getElem? 0 (List.replicate 2147483648 ("alice", "AA1")) 2147483647
    ("alice", "AA1") (by rw [List.getElem?_replicate]; rfl)
  have h3 := generateSeq_getElem? 0 (List.replicate 4294967297 ("alice", "AA1")) 0
    ("alice", "AA1") (by rw [List.getElem?_replicate]; rfl)
  have h4 := generateSeq_getElem? 0 (List.replicate 4294967297 ("alice", "AA1")) 4294967296
    ("alice", "AA1") (by rw [List.getElem?_replicate]; rfl)
  have e1 : ("alice" ++ "_" ++ "AA1" ++ "_" ++
      to_string (wrapInt32 (0 + (((2147483646 : Nat) : Int) + 1))) : String) =
      "alice_AA1_2147483647" := by decide
  have e2 : ("alice" ++ "_" ++ "AA1" ++ "_" ++
      to_string (wrapInt32 (0 + (((2147483647 : Nat) : Int) + 1))) : String) =
      "alice_AA1_-2147483648" := by decide
  have e3 : ("alice" ++ "_" ++ "AA1" ++ "_" ++
      to_string (wrapInt32 (0 + (((0 : Nat) : Int) + 1))) : String) =
      "alice_AA1_1" := by decide
  have e4 : ("alice" ++ "_" ++ "AA1" ++ "_" ++
      to_string (wrapInt32 (0 + (((4294967296 : Nat) : Int) + 1))) : String) =
      "alice_AA1_1" := by decide
  rw [e1] at h1
  rw [e2] at h2
  rw [e3] at h3
  rw [e4] at h4
  refine ⟨h1, h2, h3, h4, ?_⟩
  intro hnd
  rw [List.nodup_iff_getElem?_ne_getElem?] at hnd
  refine hnd 0 4294967296 (by decide) ?_ (by rw [h3, h4])
  rw [generateSeq_length, List.length_replicate]
  decide

/-- C13, amended: booking identifiers of one process run are unique while the int counter
does not overflow.  Starting from the initial counter 0, for a sequence of at most
2147483647 calls the n-th call of generateBookingID(username, flightNumber) returns
username + "_" + flightNumber + "_" + decimal(n), so the counter is strictly increasing
and the identifiers are pairwise different, whatever the usernames and flight numbers are
(they may contain "_" and digits); and in a run that starts with the counter 0 and has at
most 2147483647 successful book calls, these return pairwise different identifiers. -/
theorem bookingID_unique_before_overflow (calls : List (String × String))
    (sys : AirlineSystem) (ops : List Op) (hcalls : calls.length ≤ 2147483647)
    (hc : sys.counter = 0) (hops : (bookedIDs sys ops).length ≤ 2147483647) :
    (∀ (n : Nat) (p : String × String), calls[n]? = some p →
      (generateSeq 0 calls)[n]? =
        some (p.1 ++ "_" ++ p.2 ++ "_" ++ to_string ((n : Int) + 1))) ∧
    (generateSeq 0 calls).Nodup ∧
    (bookedIDs sys ops).Nodup := by
  refine ⟨?_, generateSeq_nodup 0 calls (by decide) (by omega), ?_⟩
  · intro n p hp
    rw [generateSeq_getElem? 0 calls n p hp]
    have hn : n < calls.length := by
      by_contra hge
      rw [List.getElem?_eq_none (by omega)] at hp
      cases hp
    rw [wrapInt32_of_range _ (by omega) (by omega)]
    simp
  · obtain ⟨calls2, h2⟩ := bookedIDs_eq_generateSeq ops sys
    rw [h2, hc]
    rw [h2, generateSeq_length] at hops
    exact generateSeq_nodup 0 calls2 (by decide) (by omega)

theorem bookingID_unique_before_overflow_witness :
    generateSeq 0 [("alice", "AA1"), ("alice", "AA1"), ("a_b", "c"), ("a", "b_c"), ("a", "b_1")] =
        ["alice_AA1_1", "alice_AA1_2", "a_b_c_3", "a_b_c_4", "a_b_1_5"] ∧
      (generateSeq 0
        [("alice", "AA1"), ("alice", "AA1"), ("a_b", "c"), ("a", "b_c"), ("a", "b_1")]).Nodup ∧
      bookedIDs sysAA1 [.book "alice" "AA1" 1, .book "bob" "AA1" 1, .book "bob" "AA1" 2,
        .cancel "alice_AA1_1" "alice", .book "alice" "AA1" 1] =
        ["alice_AA1_1", "bob_AA1_2", "alice_AA1_3"] ∧
      (bookedIDs sysAA1 [.book "alice" "AA1" 1, .book "bob" "AA1" 1, .book "bob" "AA1" 2,
        .cancel "alice_AA1_1" "alice", .book "alice" "AA1" 1]).Nodup :=
  ⟨by decide,
    (bookingID_unique_before_overflow
      [("alice", "AA1"), ("alice", "AA1"), ("a_b", "c"), ("a", "b_c"), ("a", "b_1")] sysAA1
      [.book "alice" "AA1" 1, .book "bob" "AA1" 1, .book "bob" "AA1" 2,
        .cancel "alice_AA1_1" "alice", .book "alice" "AA1" 1]
      (by decide) rfl (by decide)).2.1,
    by decide,
    (bookingID_unique_before_overflow
      [("alice", "AA1"), ("alice", "AA1"), ("a_b", "c"), ("a", "b_c"), ("a", "b_1")] sysAA1
      [.book "alice" "AA1" 1, .book "bob" "AA1" 1, .book "bob" "AA1" 2,
        .cancel "alice_AA1_1" "alice", .book "alice" "AA1" 1]
      (by decide) rfl (by decide)).2.2⟩

end Airline
